import Mathlib

/-!
Verification of the Apollo multi-platform launcher (`apollo.py`).

The development shallowly embeds the pure core of the program:
the type detector (`detect_type`), the config store (`load_config` /
`save_config`, including a model of the restricted `json.dumps` /
`json.loads` usage), and the effectful commands (`cmd_open`, `cmd_add`,
`run_exe`, `run_macos`) as explicit functions over small world records
that supply the results of filesystem and subprocess operations.
Strings are modelled as Lean strings (ASCII case folding stands in for
Python `str.lower`; exotic Unicode case mappings are out of scope),
bytes as natural numbers.
-/

set_option maxHeartbeats 1000000
set_option maxRecDepth 100000

/-! ## Basic character and list utilities -/

/-- The opening curly brace character. -/
def lbrace : Char := Char.ofNat 123

/-- The closing curly brace character. -/
def rbrace : Char := Char.ofNat 125

/-- The apostrophe character. -/
def apos : Char := Char.ofNat 39

/-- Whitespace characters stripped by Python `str.strip()`. -/
def isPySpace (c : Char) : Bool :=
  c = ' ' || c = '\t' || c = '\n' || c = '\r' || c = Char.ofNat 11 || c = Char.ofNat 12

/-- Quote characters stripped by `value.strip()` with the charset used in
`load_config` (double quote and apostrophe). -/
def isQuoteChar (c : Char) : Bool :=
  c = '"' || c = apos

/-- Strip characters satisfying `p` from the right end of a list. -/
def rstripP (p : Char → Bool) : List Char → List Char
  | [] => []
  | c :: r =>
    let r2 := rstripP p r
    if r2.isEmpty && p c then [] else c :: r2

/-- Strip characters satisfying `p` from both ends (Python `str.strip(chars)`). -/
def pyStripP (p : Char → Bool) (l : List Char) : List Char :=
  rstripP p (l.dropWhile p)

/-- Python `str.strip()` on a character list. -/
def pyStrip (l : List Char) : List Char := pyStripP isPySpace l

/-- Python `.strip('"\x27')` on a character list, as done to config values. -/
def stripQuotes (l : List Char) : List Char := pyStripP isQuoteChar l

/-- Split a line at the first `=` (Python `line.split('=', 1)`); the line is
guaranteed by the caller to contain an `=`. -/
def splitFirstEq : List Char → (List Char × List Char)
  | [] => ([], [])
  | c :: rest =>
    if c = '=' then ([], rest)
    else
      let p := splitFirstEq rest
      (c :: p.1, p.2)

/-- Split file content into lines at newline characters (Python line
iteration over the file). -/
def splitLinesL : List Char → List (List Char)
  | [] => [[]]
  | c :: r =>
    if c = '\n' then [] :: splitLinesL r
    else
      match splitLinesL r with
      | [] => [[c]]
      | l :: ls => (c :: l) :: ls

/-- Join lines with newline separators (Python `'\n'.join(lines)`). -/
def joinNL : List (List Char) → List Char
  | [] => []
  | [l] => l
  | l :: ls => l ++ '\n' :: joinNL ls

/-- Whether one byte list starts with another (Python `bytes.startswith`). -/
def listStartsWith : List Nat → List Nat → Bool
  | _, [] => true
  | [], _ :: _ => false
  | a :: as_, b :: bs => a = b && listStartsWith as_ bs

/-- Whether one character list starts with another. -/
def charStartsWith : List Char → List Char → Bool
  | _, [] => true
  | [], _ :: _ => false
  | a :: as_, b :: bs => a = b && charStartsWith as_ bs

/-- Whether string `s` ends with `suf` (Python `str.endswith`). -/
def strEndsWith (s suf : String) : Bool :=
  charStartsWith s.data.reverse suf.data.reverse

/-- ASCII lowercase of one character (the fragment of Python `str.lower`
exercised by the extension table). -/
def lowerChar (c : Char) : Char :=
  if 'A' ≤ c ∧ c ≤ 'Z' then Char.ofNat (c.toNat + 32) else c

/-- ASCII lowercase of a string (models `path.lower()`). -/
def toLowerStr (s : String) : String := String.mk (s.data.map lowerChar)

/-! ## Type detector (`detect_type`, apollo.py lines 176-202) -/

/-- The closed extension table of `detect_type`: the chain of
case-insensitive `endswith` tests, in source order. -/
def extKind (path : String) : Option String :=
  let pl := toLowerStr path
  if strEndsWith pl ".exe" || strEndsWith pl ".msi" then some "exe"
  else if strEndsWith pl ".apk" then some "apk"
  else if strEndsWith pl ".dmg" || strEndsWith pl ".app" || strEndsWith pl ".pkg" then some "macos"
  else if strEndsWith pl ".deb" || strEndsWith pl ".rpm" then some "linux"
  else if strEndsWith pl ".sh" || strEndsWith pl ".bash" then some "script"
  else none

/-- `detect_type(path)`: extension table first; only when no extension
matches, the first 4 bytes of the file are consulted. `header` is the
result of `open(path,'rb').read(4)`: `none` models any I/O failure
(the bare `except` returns through to `return None`). -/
def detectType (path : String) (header : Option (List Nat)) : Option String :=
  match extKind path with
  | some k => some k
  | none =>
    match header with
    | some h =>
      if listStartsWith h [77, 90] then some "exe"          -- b"MZ": Windows PE
      else if listStartsWith h [127, 69, 76, 70] then some "linux"  -- b"\x7fELF"
      else none
    | none => none

/-- C1: detect evaluates in order: (1) the case-insensitive closed extension
table decides alone, regardless of file content; (2) only with no extension
match, a leading `MZ` in the first 4 bytes yields exe and a leading
`\x7fELF` yields linux; (3) otherwise `none` (NotRecognized); an I/O
failure while reading (header `none`) also yields `none`, and `detectType`
is total, so detection never raises. -/
theorem C1_detect_type_order (p : String) (h : Option (List Nat)) :
    (∀ k, extKind p = some k → ∀ h2, detectType p h2 = some k) ∧
    (extKind p = none → ∀ bs, h = some bs → listStartsWith bs [77, 90] = true →
      detectType p h = some "exe") ∧
    (extKind p = none → ∀ bs, h = some bs → listStartsWith bs [77, 90] = false →
      listStartsWith bs [127, 69, 76, 70] = true → detectType p h = some "linux") ∧
    (extKind p = none → h = none → detectType p h = none) ∧
    (extKind p = none → ∀ bs, h = some bs → listStartsWith bs [77, 90] = false →
      listStartsWith bs [127, 69, 76, 70] = false → detectType p h = none) := by
  refine ⟨?_, ?_, ?_, ?_, ?_⟩
  · intro k hk h2
    simp [detectType, hk]
  · intro he bs hbs hmz
    subst hbs
    simp [detectType, he, hmz]
  · intro he bs hbs hmz helf
    subst hbs
    simp [detectType, he, hmz, helf]
  · intro he hn
    subst hn
    simp [detectType, he]
  · intro he bs hbs hmz helf
    subst hbs
    simp [detectType, he, hmz, helf]

/-- Witness for C1 at concrete inputs: an uppercase `.EXE` extension wins
regardless of content; with no extension match, `MZ` magic bytes give exe
and an unreadable file gives `none`. -/
theorem C1_detect_type_order_witness :
    detectType "SETUP.EXE" (some [127, 69, 76, 70]) = some "exe" ∧
    detectType "mystery.bin" (some [77, 90, 144, 0]) = some "exe" ∧
    detectType "mystery.bin" none = none := by
  refine ⟨?_, ?_, ?_⟩
  · exact (C1_detect_type_order "SETUP.EXE" (some [127, 69, 76, 70])).1 "exe" (by decide) _
  · exact (C1_detect_type_order "mystery.bin" (some [77, 90, 144, 0])).2.1 (by decide)
      [77, 90, 144, 0] rfl (by decide)
  · exact (C1_detect_type_order "mystery.bin" none).2.2.2.1 (by decide) rfl

/-! ## Config values (Python dict values stored by `load_config`) -/

/-- A value stored in an application config dict: a string, a string-to-string
mapping (`environment`), a list of strings (`mounts`), or Python `None`
(assigned to `config["type"]` in `cmd_open` when detection fails). -/
inductive CVal where
  | str (s : String)
  | dict (d : List (String × String))
  | list (l : List String)
  | pynone
deriving DecidableEq

/-- A config is a Python dict with string keys: an insertion-ordered
association list with unique keys. -/
def Config : Type := List (String × CVal)

instance : DecidableEq Config := by
  unfold Config
  infer_instance

/-- Dict lookup: first (hence only) binding for `k`. -/
def getKey (c : Config) (k : String) : Option CVal :=
  match c with
  | [] => none
  | e :: rest => if e.1 = k then some e.2 else getKey rest k

/-- Dict assignment `c[k] = v`: replaces in place, preserving insertion
order, or appends a new binding. -/
def setKey (c : Config) (k : String) (v : CVal) : Config :=
  match c with
  | [] => [(k, v)]
  | e :: rest => if e.1 = k then (k, v) :: rest else e :: setKey rest k v

/-- Python truthiness of a stored value (`bool(v)`). -/
def CVal.truthy : CVal → Bool
  | .str s => s ≠ ""
  | .dict d => d ≠ []
  | .list l => l ≠ []
  | .pynone => false

/-- `config.get(k)` used as a condition: the value when the key is present
and truthy, else `none`. -/
def getTruthy (c : Config) (k : String) : Option CVal :=
  match getKey c k with
  | some v => if v.truthy then some v else none
  | none => none

/-- `str(value)` as interpolated by the f-strings of `save_config`.
The dict/list cases use a simplified Python `repr` (correct for strings
without quotes, backslashes or control characters); they are unreachable
from configs produced by `load_config`, which stores only strings in
scalar keys. -/
def CVal.pyStr : CVal → String
  | .str s => s
  | .pynone => "None"
  | .dict d =>
    String.mk (lbrace :: (String.intercalate ", "
      (d.map (fun kv => String.mk (apos :: kv.1.data ++ apos :: ':' :: ' ' :: apos :: kv.2.data ++ [apos])))).data ++ [rbrace])
  | .list l =>
    "[" ++ String.intercalate ", " (l.map (fun s => String.mk (apos :: s.data ++ [apos]))) ++ "]"

/-! ## Model of the `json` stdlib calls made by the config store

`save_config` calls `json.dumps(value, ensure_ascii=False)` on the
`environment` dict and the `mounts` list; `load_config` calls
`json.loads` on values that start with `{` or `[`, after replacing every
apostrophe with a double quote. The model below implements exactly the
flat shapes this program stores: JSON objects mapping strings to strings
and JSON arrays of strings. Nested or non-string JSON (which no
`save_config` output ever contains) is rejected by the parser, and
duplicate object keys are kept in order rather than deduplicated. -/

/-- Lowercase hex digit. -/
def hexDigit (n : Nat) : Char :=
  if n < 10 then Char.ofNat (48 + n) else Char.ofNat (87 + n)

/-- JSON escape of one character, as produced by `json.dumps` with
`ensure_ascii=False`. -/
def escChar (c : Char) : List Char :=
  if c = '"' then ['\\', '"']
  else if c = '\\' then ['\\', '\\']
  else if c = '\n' then ['\\', 'n']
  else if c = '\t' then ['\\', 't']
  else if c = '\r' then ['\\', 'r']
  else if c = Char.ofNat 8 then ['\\', 'b']
  else if c = Char.ofNat 12 then ['\\', 'f']
  else if c.toNat < 32 then ['\\', 'u', '0', '0', hexDigit (c.toNat / 16), hexDigit (c.toNat % 16)]
  else [c]

/-- JSON escaping of a character list. -/
def jsonEscapeL (l : List Char) : List Char :=
  l.foldr (fun c acc => escChar c ++ acc) []

/-- A JSON string literal for `s`. -/
def jsonStrL (s : String) : List Char :=
  '"' :: jsonEscapeL s.data ++ ['"']

/-- Join with the default `json.dumps` item separator `", "`. -/
def joinCommaSp : List (List Char) → List Char
  | [] => []
  | [x] => x
  | x :: xs => x ++ ',' :: ' ' :: joinCommaSp xs

/-- `json.dumps(value, ensure_ascii=False)` for the shapes stored in a
config. -/
def jsonDumpsL : CVal → List Char
  | .str s => jsonStrL s
  | .pynone => "null".data
  | .dict d => lbrace :: joinCommaSp (d.map (fun kv => jsonStrL kv.1 ++ ':' :: ' ' :: jsonStrL kv.2)) ++ [rbrace]
  | .list l => '[' :: joinCommaSp (l.map jsonStrL) ++ [']']

/-- JSON whitespace accepted between tokens by `json.loads`. -/
def jsonWs (c : Char) : Bool :=
  c = ' ' || c = '\t' || c = '\n' || c = '\r'

/-- Skip JSON whitespace. -/
def skipWs (l : List Char) : List Char := l.dropWhile jsonWs

/-- Value of a hex digit. -/
def hexVal (c : Char) : Option Nat :=
  if '0' ≤ c ∧ c ≤ '9' then some (c.toNat - 48)
  else if 'a' ≤ c ∧ c ≤ 'f' then some (c.toNat - 87)
  else if 'A' ≤ c ∧ c ≤ 'F' then some (c.toNat - 55)
  else none

/-- Decode a one-character JSON escape. -/
def escDecode (c : Char) : Option Char :=
  if c = '"' then some '"'
  else if c = '\\' then some '\\'
  else if c = '/' then some '/'
  else if c = 'n' then some '\n'
  else if c = 't' then some '\t'
  else if c = 'r' then some '\r'
  else if c = 'b' then some (Char.ofNat 8)
  else if c = 'f' then some (Char.ofNat 12)
  else none

/-- Parse the body of a JSON string literal (after the opening quote),
returning the decoded content and the remainder after the closing quote.
Raw control characters are rejected, as by strict `json.loads`.
Fuel-driven so the definition reduces; every step consumes at least one
character, so `length + 1` fuel always suffices. -/
def parseStringBodyF : Nat → List Char → Option (List Char × List Char)
  | 0, _ => none
  | Nat.succ fuel, l =>
    match l with
    | [] => none
    | c :: r =>
      if c = '"' then some ([], r)
      else if c = '\\' then
        match r with
        | [] => none
        | e :: r2 =>
          if e = 'u' then
            match r2 with
            | h1 :: h2 :: h3 :: h4 :: r3 =>
              match hexVal h1, hexVal h2, hexVal h3, hexVal h4 with
              | some a, some b, some c3, some d =>
                match parseStringBodyF fuel r3 with
                | some (s, rest) => some (Char.ofNat (((a * 16 + b) * 16 + c3) * 16 + d) :: s, rest)
                | none => none
              | _, _, _, _ => none
            | _ => none
          else
            match escDecode e with
            | some dc =>
              match parseStringBodyF fuel r2 with
              | some (s, rest) => some (dc :: s, rest)
              | none => none
            | none => none
      else if c.toNat < 32 then none
      else
        match parseStringBodyF fuel r with
        | some (s, rest) => some (c :: s, rest)
        | none => none

/-- Parse a JSON string literal body with enough fuel for its input. -/
def parseStringBody (l : List Char) : Option (List Char × List Char) :=
  parseStringBodyF (l.length + 1) l

/-- Parse the entries of a flat JSON object, positioned at the first key;
consumes through the closing brace. Fuel-driven recursion. -/
def parseEntries : Nat → List Char → Option (List (String × String) × List Char)
  | 0, _ => none
  | Nat.succ fuel, l =>
    match l with
    | c :: r =>
      if c = '"' then
        match parseStringBody r with
        | none => none
        | some (k, r1) =>
          match skipWs r1 with
          | ':' :: r2 =>
            match skipWs r2 with
            | c3 :: r3 =>
              if c3 = '"' then
                match parseStringBody r3 with
                | none => none
                | some (v, r4) =>
                  match skipWs r4 with
                  | ',' :: r5 =>
                    match parseEntries fuel (skipWs r5) with
                    | some (es, rest) => some ((String.mk k, String.mk v) :: es, rest)
                    | none => none
                  | c6 :: r6 =>
                    if c6 = rbrace then some ([(String.mk k, String.mk v)], r6) else none
                  | [] => none
              else none
            | [] => none
          | _ => none
      else none
    | [] => none

/-- Parse the items of a flat JSON array, positioned at the first item;
consumes through the closing bracket. -/
def parseItems : Nat → List Char → Option (List String × List Char)
  | 0, _ => none
  | Nat.succ fuel, l =>
    match l with
    | c :: r =>
      if c = '"' then
        match parseStringBody r with
        | none => none
        | some (v, r1) =>
          match skipWs r1 with
          | ',' :: r2 =>
            match parseItems fuel (skipWs r2) with
            | some (vs, rest) => some (String.mk v :: vs, rest)
            | none => none
          | ']' :: r2 => some ([String.mk v], r2)
          | _ => none
      else none
    | [] => none

/-- `json.loads` restricted to flat string-to-string objects. -/
def parseFlatDictL (l : List Char) : Option (List (String × String)) :=
  match skipWs l with
  | c :: r =>
    if c = lbrace then
      match skipWs r with
      | c2 :: r2 =>
        if c2 = rbrace then
          if (skipWs r2).isEmpty then some [] else none
        else
          match parseEntries (r.length + 1) (skipWs r) with
          | some (es, rest) => if (skipWs rest).isEmpty then some es else none
          | none => none
      | [] => none
    else none
  | [] => none

/-- `json.loads` restricted to flat arrays of strings. -/
def parseFlatListL (l : List Char) : Option (List String) :=
  match skipWs l with
  | c :: r =>
    if c = '[' then
      match skipWs r with
      | c2 :: r2 =>
        if c2 = ']' then
          if (skipWs r2).isEmpty then some [] else none
        else
          match parseItems (r.length + 1) (skipWs r) with
          | some (vs, rest) => if (skipWs rest).isEmpty then some vs else none
          | none => none
      | [] => none
    else none
  | [] => none

/-- `value.replace("\x27", char(34))`: the apostrophe-to-double-quote
substitution `load_config` applies before `json.loads`. -/
def replaceAposL (l : List Char) : List Char :=
  l.map (fun c => if c = apos then '"' else c)

/-! ## Config store (`load_config` / `save_config`, apollo.py lines 358-448) -/

/-- The default record returned by `load_config` when no config file
exists, with the key order of the source dict literal. -/
def defaultConfig (appName : String) : Config :=
  [("name", .str appName),
   ("type", .str "unknown"),
   ("path", .str ""),
   ("environment", .dict []),
   ("network", .str "nat"),
   ("mounts", .list []),
   ("arguments", .str ""),
   ("working_dir", .str ""),
   ("description", .str "")]

/-- Process one config file line, mirroring the loop body of `load_config`:
strip, skip blank / comment / `=`-free lines, split at the first `=`,
strip whitespace then quotes off the value, parse `environment` values
starting with a brace and `mounts` values starting with a bracket as JSON
(degrading to empty on failure), store everything else as a string. -/
def processLineL (c : Config) (line : List Char) : Config :=
  let l := pyStrip line
  if l.isEmpty then c
  else if l.head? = some '#' then c
  else if ¬ l.contains '=' then c
  else
    let kv := splitFirstEq l
    let key := String.mk (pyStrip kv.1)
    let valL := stripQuotes (pyStrip kv.2)
    if key = "environment" ∧ valL.head? = some lbrace then
      setKey c "environment" (.dict ((parseFlatDictL (replaceAposL valL)).getD []))
    else if key = "mounts" ∧ valL.head? = some '[' then
      setKey c "mounts" (.list ((parseFlatListL (replaceAposL valL)).getD []))
    else
      setKey c key (.str (String.mk valL))

/-- Fold line processing over a list of lines. -/
def applyLines (c : Config) (ls : List (List Char)) : Config :=
  ls.foldl processLineL c

/-- `load_config(app_name)`: `file` is the content of
`CONF_DIR/{app_name}.conf`, or `none` when the file does not exist. -/
def loadConfig (appName : String) (file : Option String) : Config :=
  match file with
  | none => defaultConfig appName
  | some content => applyLines [] (splitLinesL content.data)

/-- The three comment lines and blank line `save_config` writes first. -/
def headerLines (appName : String) : List (List Char) :=
  [("# Конфигурация приложения: " ++ appName).data,
   "# Сгенерировано Apollo 2.1.0".data,
   "# Измените параметры по необходимости".data,
   []]

/-- One `key = "value"` line as formatted by `save_config` f-strings. -/
def scalarLineL (k : String) (v : CVal) : List Char :=
  k.data ++ ' ' :: '=' :: ' ' :: '"' :: v.pyStr.data ++ ['"']

/-- One `key = <json>` line for the structured fields. -/
def structLineL (k : String) (v : CVal) : List Char :=
  k.data ++ ' ' :: '=' :: ' ' :: jsonDumpsL v

/-- The line for an optional scalar field: present only when the value is
truthy. -/
def optScalarLines (c : Config) (k : String) : List (List Char) :=
  match getTruthy c k with
  | some v => [scalarLineL k v]
  | none => []

/-- The line for an optional structured field: present only when the value
is truthy. -/
def optStructLines (c : Config) (k : String) : List (List Char) :=
  match getTruthy c k with
  | some v => [structLineL k v]
  | none => []

/-- A mandatory line: `config.get(key, default)` formatted as a scalar. -/
def mandLine (c : Config) (k : String) (dflt : String) : List Char :=
  scalarLineL k ((getKey c k).getD (.str dflt))

/-- All lines `save_config` writes, in source order. -/
def saveLines (appName : String) (c : Config) : List (List Char) :=
  headerLines appName ++
  [mandLine c "name" appName, mandLine c "type" "unknown", mandLine c "path" ""] ++
  optScalarLines c "description" ++
  optStructLines c "environment" ++
  optStructLines c "mounts" ++
  optScalarLines c "network" ++
  optScalarLines c "arguments" ++
  optScalarLines c "working_dir"

/-- `save_config(app_name, config)`: the file content written
(`'\n'.join(lines)`, no trailing newline). Success of the write itself is
modelled by the callers. -/
def saveConfig (appName : String) (c : Config) : String :=
  String.mk (joinNL (saveLines appName c))

example :
    parseFlatDictL (replaceAposL (jsonDumpsL (.dict [("A", "B"), ("C", "D")]))) =
      some [("A", "B"), ("C", "D")] := by decide

example : parseFlatListL "[\"a:b\", \"c:d\"]".data = some ["a:b", "c:d"] := by decide

example : parseFlatDictL "\x7bbroken".data = none := by decide

/-! ## Generic lemmas about the string utilities -/

theorem head?_appendL {α : Type} (l r : List α) (h : l ≠ []) :
    (l ++ r).head? = l.head? := by
  cases l with
  | nil => exact absurd rfl h
  | cons a t => rfl

theorem rstripP_cons (p : Char → Bool) (c : Char) (r : List Char) :
    rstripP p (c :: r) =
      if (rstripP p r).isEmpty && p c then [] else c :: rstripP p r := rfl

theorem rstripP_cons_nodrop (p : Char → Bool) (c : Char) (r : List Char)
    (h : p c = false) : rstripP p (c :: r) = c :: rstripP p r := by
  rw [rstripP_cons, h, Bool.and_false]
  simp

theorem rstripP_id (p : Char → Bool) (l : List Char)
    (h : ∀ a, l.getLast? = some a → p a = false) : rstripP p l = l := by
  induction l with
  | nil => rfl
  | cons c r ih =>
    cases r with
    | nil =>
      have hc := h c rfl
      rw [rstripP_cons, hc, Bool.and_false]
      simp [rstripP]
    | cons c2 r2 =>
      have hr : rstripP p (c2 :: r2) = c2 :: r2 := by
        apply ih
        intro a ha
        apply h
        rwa [List.getLast?_cons_cons]
      rw [rstripP_cons, hr]
      simp

theorem rstripP_concat_drop (p : Char → Bool) (l : List Char) (a : Char)
    (h : p a = true) : rstripP p (l ++ [a]) = rstripP p l := by
  induction l with
  | nil =>
    simp only [List.nil_append]
    rw [rstripP_cons, h]
    simp [rstripP]
  | cons c r ih =>
    rw [List.cons_append, rstripP_cons, ih, rstripP_cons]

theorem pyStripP_id (p : Char → Bool) (l : List Char)
    (hh : ∀ a, l.head? = some a → p a = false)
    (hl : ∀ a, l.getLast? = some a → p a = false) : pyStripP p l = l := by
  unfold pyStripP
  cases l with
  | nil => rfl
  | cons c r =>
    rw [List.dropWhile_cons, hh c rfl]
    simp only [Bool.false_eq_true, if_false]
    exact rstripP_id p (c :: r) hl

theorem pyStripP_cons_head (p : Char → Bool) (c : Char) (r : List Char)
    (h : p c = false) : pyStripP p (c :: r) = c :: rstripP p r := by
  unfold pyStripP
  rw [List.dropWhile_cons, h]
  simp only [Bool.false_eq_true, if_false]
  exact rstripP_cons_nodrop p c r h

theorem rstripP_mem (p : Char → Bool) (l : List Char) (a : Char)
    (h : a ∈ rstripP p l) : a ∈ l := by
  induction l with
  | nil => simp [rstripP] at h
  | cons c r ih =>
    rw [rstripP_cons] at h
    by_cases he : ((rstripP p r).isEmpty && p c) = true
    · rw [if_pos he] at h
      simp at h
    · rw [if_neg he] at h
      rcases List.mem_cons.mp h with h2 | h2
      · exact h2 ▸ List.mem_cons_self c r
      · exact List.mem_cons_of_mem c (ih h2)

theorem pyStripP_mem (p : Char → Bool) (l : List Char) (a : Char)
    (h : a ∈ pyStripP p l) : a ∈ l := by
  unfold pyStripP at h
  exact (List.dropWhile_sublist p (l := l)).mem (rstripP_mem p _ a h)

theorem splitFirstEq_append (a b : List Char) (h : '=' ∉ a) :
    splitFirstEq (a ++ '=' :: b) = (a, b) := by
  induction a with
  | nil => simp [splitFirstEq]
  | cons c r ih =>
    have hc : c ≠ '=' := by
      intro hc
      exact h (hc ▸ List.mem_cons_self c r)
    have hr : '=' ∉ r := fun hm => h (List.mem_cons_of_mem c hm)
    simp [splitFirstEq, hc, ih hr]

theorem splitLinesL_cons_ne (c : Char) (r : List Char) (hc : c ≠ '\n') :
    splitLinesL (c :: r) =
      match splitLinesL r with
      | [] => [[c]]
      | l :: ls => (c :: l) :: ls := by
  simp [splitLinesL, hc]

theorem splitLinesL_no_nl (a : List Char) (h : '\n' ∉ a) :
    splitLinesL a = [a] := by
  induction a with
  | nil => rfl
  | cons c r ih =>
    have hc : c ≠ '\n' := fun hc => h (hc ▸ List.mem_cons_self c r)
    have hr : '\n' ∉ r := fun hm => h (List.mem_cons_of_mem c hm)
    rw [splitLinesL_cons_ne c r hc, ih hr]

theorem splitLinesL_append (a b : List Char) (h : '\n' ∉ a) :
    splitLinesL (a ++ '\n' :: b) = a :: splitLinesL b := by
  induction a with
  | nil => simp [splitLinesL]
  | cons c r ih =>
    have hc : c ≠ '\n' := fun hc => h (hc ▸ List.mem_cons_self c r)
    have hr : '\n' ∉ r := fun hm => h (List.mem_cons_of_mem c hm)
    rw [List.cons_append, splitLinesL_cons_ne c _ hc, ih hr]

theorem splitLinesL_joinNL (L : List (List Char)) (hne : L ≠ [])
    (h : ∀ l ∈ L, '\n' ∉ l) : splitLinesL (joinNL L) = L := by
  induction L with
  | nil => exact absurd rfl hne
  | cons l ls ih =>
    cases ls with
    | nil =>
      exact splitLinesL_no_nl l (h l (List.mem_cons_self l []))
    | cons l2 ls2 =>
      have hj : joinNL (l :: l2 :: ls2) = l ++ '\n' :: joinNL (l2 :: ls2) := rfl
      rw [hj, splitLinesL_append l _ (h l (List.mem_cons_self l _))]
      rw [ih (by simp) (fun x hx => h x (List.mem_cons_of_mem l hx))]

/-! ## Generic lemmas about config dict operations -/

theorem getKey_setKey_same (c : Config) (k : String) (v : CVal) :
    getKey (setKey c k v) k = some v := by
  induction c with
  | nil => simp [setKey, getKey]
  | cons e rest ih =>
    by_cases he : e.1 = k
    · unfold setKey
      rw [if_pos he]
      unfold getKey
      simp
    · unfold setKey
      rw [if_neg he]
      unfold getKey
      rw [if_neg he]
      exact ih

theorem getKey_setKey_ne (c : Config) (k k2 : String) (v : CVal) (h : k ≠ k2) :
    getKey (setKey c k v) k2 = getKey c k2 := by
  induction c with
  | nil =>
    unfold setKey getKey
    rw [if_neg h]
    rfl
  | cons e rest ih =>
    by_cases he : e.1 = k
    · unfold setKey
      rw [if_pos he]
      unfold getKey
      rw [if_neg h, if_neg (he ▸ h : ¬e.1 = k2)]
    · unfold setKey
      rw [if_neg he]
      unfold getKey
      by_cases he2 : e.1 = k2
      · rw [if_pos he2, if_pos he2]
      · rw [if_neg he2, if_neg he2]
        exact ih

theorem applyLines_append (c : Config) (L1 L2 : List (List Char)) :
    applyLines c (L1 ++ L2) = applyLines (applyLines c L1) L2 :=
  List.foldl_append _ _ _ _

/-! ## Line-processing lemmas for `load_config` -/

theorem strMk_data (s : String) : String.mk s.data = s := rfl

theorem dropWhile_id_of_head (p : Char → Bool) (l : List Char)
    (h : ∀ a, l.head? = some a → p a = false) : l.dropWhile p = l := by
  cases l with
  | nil => rfl
  | cons c r =>
    rw [List.dropWhile_cons, h c rfl]
    simp

theorem processLineL_skip (c : Config) (line : List Char)
    (h : pyStrip line = [] ∨ line.head? = some '#' ∨ '=' ∉ line) :
    processLineL c line = c := by
  rcases h with h | h | h
  · simp [processLineL, h]
  · cases line with
    | nil => simp at h
    | cons a r =>
      have ha : a = '#' := by simpa using h
      subst ha
      have hstrip : pyStrip ('#' :: r) = '#' :: rstripP isPySpace r :=
        pyStripP_cons_head isPySpace '#' r (by decide)
      simp [processLineL, hstrip]
  · have hmem : '=' ∉ pyStrip line := fun hm => h (pyStripP_mem _ _ _ hm)
    have hcont : (pyStrip line).contains '=' = false := by simpa using hmem
    unfold processLineL
    by_cases h1 : (pyStrip line).isEmpty
    · simp [h1]
    · by_cases h2 : (pyStrip line).head? = some '#'
      · simp [h1, h2]
      · simp only [processLineL, h1, Bool.false_eq_true, if_false, h2]
        rw [if_pos (by simp [hcont]; exact hmem)]

theorem processLineL_keyval (c : Config) (k : String) (vTail : List Char)
    (hk0 : k.data ≠ [])
    (hkh : ∀ a, k.data.head? = some a → isPySpace a = false ∧ a ≠ '#')
    (hkl : ∀ a, k.data.getLast? = some a → isPySpace a = false)
    (hke : '=' ∉ k.data)
    (hvl : ∀ a, vTail.getLast? = some a → isPySpace a = false) :
    processLineL c (k.data ++ ' ' :: '=' :: vTail) =
      (let valL := stripQuotes (pyStrip vTail)
       if k = "environment" ∧ valL.head? = some lbrace then
         setKey c "environment" (.dict ((parseFlatDictL (replaceAposL valL)).getD []))
       else if k = "mounts" ∧ valL.head? = some '[' then
         setKey c "mounts" (.list ((parseFlatListL (replaceAposL valL)).getD []))
       else setKey c k (.str (String.mk valL))) := by
  obtain ⟨a0, ha0⟩ : ∃ a, k.data.head? = some a := by
    cases hd : k.data with
    | nil => exact absurd hd hk0
    | cons x t => exact ⟨x, by simp [hd]⟩
  have hline_last : ∀ a, (k.data ++ ' ' :: '=' :: vTail).getLast? = some a →
      isPySpace a = false := by
    intro a ha
    rw [List.getLast?_append_of_ne_nil k.data (by simp)] at ha
    cases vTail with
    | nil =>
      simp at ha
      rw [← ha]
      decide
    | cons w ws =>
      rw [List.getLast?_cons_cons, List.getLast?_cons_cons] at ha
      exact hvl a ha
  have hstrip : pyStrip (k.data ++ ' ' :: '=' :: vTail) = k.data ++ ' ' :: '=' :: vTail := by
    apply pyStripP_id
    · intro a ha
      rw [head?_appendL _ _ hk0] at ha
      exact (hkh a ha).1
    · exact hline_last
  have hne : (k.data ++ ' ' :: '=' :: vTail) ≠ [] := by
    intro hc
    exact hk0 (List.append_eq_nil.mp hc).1
  have hhead : (k.data ++ ' ' :: '=' :: vTail).head? = some a0 := by
    rw [head?_appendL _ _ hk0]
    exact ha0
  have hsplit : splitFirstEq (k.data ++ ' ' :: '=' :: vTail) = (k.data ++ [' '], vTail) := by
    have hsh : k.data ++ ' ' :: '=' :: vTail = (k.data ++ [' ']) ++ '=' :: vTail := by
      simp
    rw [hsh]
    apply splitFirstEq_append
    intro hm
    rcases List.mem_append.mp hm with hm | hm
    · exact hke hm
    · simp at hm
  have hkeyStrip : pyStrip (k.data ++ [' ']) = k.data := by
    unfold pyStrip pyStripP
    rw [dropWhile_id_of_head _ _ (fun a ha => (hkh a (by rwa [head?_appendL _ _ hk0] at ha)).1)]
    rw [rstripP_concat_drop _ _ _ (by decide)]
    exact rstripP_id _ _ hkl
  have hnotEmpty : ¬ ((k.data ++ ' ' :: '=' :: vTail).isEmpty = true) := by
    simp [List.isEmpty_iff]
  have hnothash : ¬ (k.data ++ ' ' :: '=' :: vTail).head? = some '#' := by
    rw [hhead]
    intro hcon
    exact (hkh a0 ha0).2 (by injection hcon)
  have hnotskip : ¬ (¬ (k.data ++ ' ' :: '=' :: vTail).contains '=' = true) := by
    simp
  simp only [processLineL, hstrip, hsplit, hkeyStrip, strMk_data]
  rw [if_neg hnotEmpty, if_neg hnothash, if_neg hnotskip]

theorem stripVal_quoted (v : List Char)
    (hh : ∀ a, v.head? = some a → isQuoteChar a = false)
    (hl : ∀ a, v.getLast? = some a → isQuoteChar a = false) :
    stripQuotes (pyStrip (' ' :: '"' :: v ++ ['"'])) = v := by
  have h1 : pyStrip (' ' :: ('"' :: v ++ ['"'])) = '"' :: v ++ ['"'] := by
    unfold pyStrip pyStripP
    rw [List.dropWhile_cons]
    have : isPySpace ' ' = true := by decide
    rw [this]
    simp only [if_true]
    rw [dropWhile_id_of_head _ _ (by intro a ha; simp at ha; rw [← ha]; decide)]
    apply rstripP_id
    intro a ha
    have : (('"' :: v) ++ ['"']).getLast? = some '"' := by
      rw [List.getLast?_append_of_ne_nil _ (by simp)]
      rfl
    rw [List.cons_append] at ha
    rw [List.cons_append] at this
    rw [this] at ha
    injection ha with ha
    rw [← ha]
    decide
  rw [show (' ' :: '"' :: v ++ ['"']) = (' ' :: ('"' :: v ++ ['"'])) from rfl, h1]
  unfold stripQuotes pyStripP
  cases v with
  | nil => decide
  | cons a t =>
    rw [show ('"' :: (a :: t) ++ ['"']) = ('"' :: ((a :: t) ++ ['"'])) from rfl]
    rw [List.dropWhile_cons]
    have : isQuoteChar '"' = true := by decide
    rw [this]
    simp only [if_true]
    rw [dropWhile_id_of_head _ _ (by
      intro b hb
      rw [head?_appendL _ _ (by simp)] at hb
      exact hh b hb)]
    rw [rstripP_concat_drop _ _ _ (by decide)]
    exact rstripP_id _ _ hl

theorem stripVal_raw (v : List Char) (a0 : Char) (hhead : v.head? = some a0)
    (ha0 : isPySpace a0 = false) (hq0 : isQuoteChar a0 = false)
    (hlast : ∀ a, v.getLast? = some a → isPySpace a = false ∧ isQuoteChar a = false) :
    stripQuotes (pyStrip (' ' :: v)) = v := by
  have h1 : pyStrip (' ' :: v) = v := by
    unfold pyStrip pyStripP
    rw [List.dropWhile_cons]
    have : isPySpace ' ' = true := by decide
    rw [this]
    simp only [if_true]
    rw [dropWhile_id_of_head _ _ (by
      intro a ha
      rw [hhead] at ha
      injection ha with ha
      rw [← ha]
      exact ha0)]
    exact rstripP_id _ _ (fun a ha => (hlast a ha).1)
  rw [h1]
  exact pyStripP_id _ _ (fun a ha => by rw [hhead] at ha; injection ha with ha; rw [← ha]; exact hq0)
    (fun a ha => (hlast a ha).2)

/-! ## Well-formedness predicates for round-trip reasoning -/

/-- A scalar value that survives the `key = "value"` format: no raw line
breaks (which would inject extra config lines) and no quote characters at
either end (which `strip` would remove on reload). -/
def scalarOK (v : String) : Bool :=
  !v.data.contains '\n' && !v.data.contains '\r' &&
  (match v.data.head? with | some a => !isQuoteChar a | none => true) &&
  (match v.data.getLast? with | some a => !isQuoteChar a | none => true)

/-- A key usable on the left of `=`: nonempty, not starting with `#` or
whitespace, not ending in whitespace, and containing no `=`. All keys
`save_config` writes satisfy this. -/
def keyShapeOK (k : String) : Bool :=
  (match k.data.head? with
   | some a => !isPySpace a && a ≠ '#'
   | none => false) &&
  (match k.data.getLast? with | some a => !isPySpace a | none => true) &&
  !k.data.contains '='

/-- The named key is absent or holds a well-formed string. -/
def scalarKeyOK (c : Config) (k : String) : Bool :=
  match getKey c k with
  | none => true
  | some (.str v) => scalarOK v
  | some _ => false

/-- The `environment` key is absent or holds a mapping. -/
def envTyped (c : Config) : Bool :=
  match getKey c "environment" with
  | none => true
  | some (.dict _) => true
  | some _ => false

/-- The `mounts` key is absent or holds a list. -/
def mountsTyped (c : Config) : Bool :=
  match getKey c "mounts" with
  | none => true
  | some (.list _) => true
  | some _ => false

/-- A record whose fields have their expected types and whose scalar
strings are well-formed. -/
def recordWF (c : Config) : Bool :=
  scalarKeyOK c "name" && scalarKeyOK c "type" && scalarKeyOK c "path" &&
  scalarKeyOK c "description" && scalarKeyOK c "network" &&
  scalarKeyOK c "arguments" && scalarKeyOK c "working_dir" &&
  envTyped c && mountsTyped c

theorem scalarOK_props (v : String) (h : scalarOK v = true) :
    '\n' ∉ v.data ∧ '\r' ∉ v.data ∧
    (∀ a, v.data.head? = some a → isQuoteChar a = false) ∧
    (∀ a, v.data.getLast? = some a → isQuoteChar a = false) := by
  unfold scalarOK at h
  rw [Bool.and_eq_true, Bool.and_eq_true, Bool.and_eq_true] at h
  obtain ⟨⟨⟨h1, h2⟩, h3⟩, h4⟩ := h
  refine ⟨by simpa using h1, by simpa using h2, ?_, ?_⟩
  · intro a ha
    rw [ha] at h3
    simpa using h3
  · intro a ha
    rw [ha] at h4
    simpa using h4

theorem keyShapeOK_props (k : String) (h : keyShapeOK k = true) :
    k.data ≠ [] ∧
    (∀ a, k.data.head? = some a → isPySpace a = false ∧ a ≠ '#') ∧
    (∀ a, k.data.getLast? = some a → isPySpace a = false) ∧
    '=' ∉ k.data := by
  unfold keyShapeOK at h
  rw [Bool.and_eq_true, Bool.and_eq_true] at h
  obtain ⟨⟨h1, h2⟩, h3⟩ := h
  refine ⟨?_, ?_, ?_, by simpa using h3⟩
  · intro hc
    rw [hc] at h1
    simp at h1
  · intro a ha
    rw [ha] at h1
    rw [Bool.and_eq_true] at h1
    exact ⟨by simpa using h1.1, by simpa using h1.2⟩
  · intro a ha
    rw [ha] at h2
    simpa using h2

/-! ## Newline-freeness of everything `save_config` emits -/

theorem escChar_no_nl (c : Char) : '\n' ∉ escChar c := by
  unfold escChar
  by_cases h1 : c = '"'
  · simp [h1]
  · by_cases h2 : c = '\\'
    · simp [h1, h2]
    · by_cases h3 : c = '\n'
      · simp [h1, h2, h3]
      · by_cases h4 : c = '\t'
        · simp [h1, h2, h3, h4]
        · by_cases h5 : c = '\r'
          · simp [h1, h2, h3, h4, h5]
          · by_cases h6 : c = Char.ofNat 8
            · simp [h1, h2, h3, h4, h5, h6]
            · by_cases h7 : c = Char.ofNat 12
              · simp [h1, h2, h3, h4, h5, h6, h7]
              · have hx : ∀ d, d < 16 → ¬ hexDigit d = '\n' := by decide
                by_cases h8 : c.toNat < 32
                · simp only [h1, h2, h3, h4, h5, h6, h7, h8, if_false, if_true]
                  intro hm
                  simp only [List.mem_cons, List.not_mem_nil, or_false] at hm
                  rcases hm with hm | hm | hm | hm | hm | hm
                  · exact absurd hm.symm (by decide)
                  · exact absurd hm.symm (by decide)
                  · exact absurd hm.symm (by decide)
                  · exact absurd hm.symm (by decide)
                  · exact absurd hm.symm (hx _ (by omega))
                  · exact absurd hm.symm (hx _ (by omega))
                · simp only [h1, h2, h3, h4, h5, h6, h7, h8, if_false]
                  intro hm
                  simp only [List.mem_singleton] at hm
                  exact h3 hm.symm

theorem jsonEscapeL_no_nl (l : List Char) : '\n' ∉ jsonEscapeL l := by
  induction l with
  | nil => simp [jsonEscapeL]
  | cons c r ih =>
    unfold jsonEscapeL
    simp only [List.foldr_cons]
    intro hm
    rcases List.mem_append.mp hm with hm | hm
    · exact escChar_no_nl c hm
    · exact ih hm

theorem jsonStrL_no_nl (s : String) : '\n' ∉ jsonStrL s := by
  unfold jsonStrL
  intro hm
  rcases List.mem_cons.mp hm with hm | hm
  · simp at hm
  · rcases List.mem_append.mp hm with hm | hm
    · exact jsonEscapeL_no_nl s.data hm
    · simp at hm

theorem joinCommaSp_no_nl (L : List (List Char)) (h : ∀ x ∈ L, '\n' ∉ x) :
    '\n' ∉ joinCommaSp L := by
  induction L with
  | nil => simp [joinCommaSp]
  | cons x xs ih =>
    cases xs with
    | nil => exact h x (List.mem_cons_self x [])
    | cons y ys =>
      intro hm
      have hj : joinCommaSp (x :: y :: ys) = x ++ ',' :: ' ' :: joinCommaSp (y :: ys) := rfl
      rw [hj] at hm
      rcases List.mem_append.mp hm with hm | hm
      · exact h x (List.mem_cons_self x _) hm
      · rcases List.mem_cons.mp hm with hm | hm
        · simp at hm
        · rcases List.mem_cons.mp hm with hm | hm
          · simp at hm
          · exact ih (fun z hz => h z (List.mem_cons_of_mem x hz)) hm

theorem jsonDumpsL_no_nl (v : CVal) : '\n' ∉ jsonDumpsL v := by
  cases v with
  | str s => exact jsonStrL_no_nl s
  | pynone => decide
  | dict d =>
    unfold jsonDumpsL
    intro hm
    rcases List.mem_cons.mp hm with hm | hm
    · simp [lbrace] at hm
    · rcases List.mem_append.mp hm with hm | hm
      · refine joinCommaSp_no_nl _ ?_ hm
        intro x hx
        rcases List.mem_map.mp hx with ⟨kv, _, hkv⟩
        rw [← hkv]
        intro hmm
        rcases List.mem_append.mp hmm with hmm | hmm
        · exact jsonStrL_no_nl kv.1 hmm
        · rcases List.mem_cons.mp hmm with hmm | hmm
          · simp at hmm
          · rcases List.mem_cons.mp hmm with hmm | hmm
            · simp at hmm
            · exact jsonStrL_no_nl kv.2 hmm
      · simp [rbrace] at hm
  | list l =>
    unfold jsonDumpsL
    intro hm
    rcases List.mem_cons.mp hm with hm | hm
    · simp at hm
    · rcases List.mem_append.mp hm with hm | hm
      · refine joinCommaSp_no_nl _ ?_ hm
        intro x hx
        rcases List.mem_map.mp hx with ⟨s, _, hs⟩
        rw [← hs]
        exact jsonStrL_no_nl s
      · simp at hm

/-! ## Processing the exact lines `save_config` emits -/

/-- What the structured `environment` value becomes after one
save-then-load cycle: dumped to JSON, apostrophes replaced, reparsed,
degraded to empty on parse failure. -/
def envReparse (d : List (String × String)) : List (String × String) :=
  (parseFlatDictL (replaceAposL (jsonDumpsL (.dict d)))).getD []

/-- What the structured `mounts` value becomes after one save-then-load
cycle. -/
def mountsReparse (l : List String) : List String :=
  (parseFlatListL (replaceAposL (jsonDumpsL (.list l)))).getD []

theorem getLast?_cons_concat (x y : Char) (L : List Char) :
    (x :: (L ++ [y])).getLast? = some y := by
  rw [show x :: (L ++ [y]) = (x :: L) ++ [y] from rfl]
  rw [List.getLast?_append_of_ne_nil _ (by simp)]
  rfl

theorem jsonDumpsL_dict (d : List (String × String)) :
    jsonDumpsL (.dict d) =
      lbrace :: (joinCommaSp (d.map fun kv => jsonStrL kv.1 ++ ':' :: ' ' :: jsonStrL kv.2) ++ [rbrace]) := rfl

theorem jsonDumpsL_list (l : List String) :
    jsonDumpsL (.list l) = '[' :: (joinCommaSp (l.map jsonStrL) ++ [']']) := rfl

theorem processLineL_scalarLine (c : Config) (k : String) (v : String)
    (hkey : keyShapeOK k = true) (hk1 : k ≠ "environment") (hk2 : k ≠ "mounts")
    (hv : scalarOK v = true) :
    processLineL c (scalarLineL k (.str v)) = setKey c k (.str v) := by
  obtain ⟨hk0, hkh, hkl, hke⟩ := keyShapeOK_props k hkey
  obtain ⟨hnl, hcr, hqh, hql⟩ := scalarOK_props v hv
  have hshape : scalarLineL k (.str v) =
      k.data ++ ' ' :: '=' :: (' ' :: '"' :: v.data ++ ['"']) := by
    simp [scalarLineL, CVal.pyStr]
  rw [hshape]
  rw [processLineL_keyval c k _ hk0 hkh hkl hke (by
    intro a ha
    have hg : (' ' :: '"' :: v.data ++ ['"']).getLast? = some '"' := by
      rw [show (' ' :: '"' :: v.data ++ ['"']) = (' ' :: (('"' :: v.data) ++ ['"'])) from rfl]
      exact getLast?_cons_concat ' ' '"' ('"' :: v.data)
    rw [hg] at ha
    injection ha with ha
    rw [← ha]
    decide)]
  have hval : stripQuotes (pyStrip (' ' :: '"' :: v.data ++ ['"'])) = v.data :=
    stripVal_quoted v.data hqh hql
  simp only [hval]
  rw [if_neg (fun hcon => hk1 hcon.1), if_neg (fun hcon => hk2 hcon.1)]

theorem processLineL_envLine (c : Config) (d : List (String × String)) :
    processLineL c (structLineL "environment" (.dict d)) =
      setKey c "environment" (.dict (envReparse d)) := by
  have hshape : structLineL "environment" (.dict d) =
      ("environment".data) ++ ' ' :: '=' :: (' ' :: jsonDumpsL (.dict d)) := by
    unfold structLineL
    rfl
  obtain ⟨hk0, hkh, hkl, hke⟩ := keyShapeOK_props "environment" (by decide)
  have hlastD : (jsonDumpsL (.dict d)).getLast? = some rbrace := by
    rw [jsonDumpsL_dict]
    exact getLast?_cons_concat _ _ _
  rw [hshape]
  rw [processLineL_keyval c "environment" _ hk0 hkh hkl hke (by
    intro a ha
    have hg : (' ' :: jsonDumpsL (.dict d)).getLast? = some rbrace := by
      cases hdj : jsonDumpsL (.dict d) with
      | nil => rw [hdj] at hlastD; simp at hlastD
      | cons x t =>
        rw [List.getLast?_cons_cons]
        rw [← hdj, hlastD]
    rw [hg] at ha
    injection ha with ha
    rw [← ha]
    decide)]
  have hhd : (jsonDumpsL (.dict d)).head? = some lbrace := rfl
  have hval : stripQuotes (pyStrip (' ' :: jsonDumpsL (.dict d))) = jsonDumpsL (.dict d) := by
    apply stripVal_raw _ lbrace hhd (by decide) (by decide)
    intro a ha
    rw [hlastD] at ha
    injection ha with ha
    rw [← ha]
    exact ⟨by decide, by decide⟩
  simp only [hval]
  simp [hhd, envReparse]

theorem processLineL_mountsLine (c : Config) (l : List String) :
    processLineL c (structLineL "mounts" (.list l)) =
      setKey c "mounts" (.list (mountsReparse l)) := by
  have hshape : structLineL "mounts" (.list l) =
      ("mounts".data) ++ ' ' :: '=' :: (' ' :: jsonDumpsL (.list l)) := by
    unfold structLineL
    rfl
  obtain ⟨hk0, hkh, hkl, hke⟩ := keyShapeOK_props "mounts" (by decide)
  have hlastD : (jsonDumpsL (.list l)).getLast? = some ']' := by
    rw [jsonDumpsL_list]
    exact getLast?_cons_concat _ _ _
  rw [hshape]
  rw [processLineL_keyval c "mounts" _ hk0 hkh hkl hke (by
    intro a ha
    have hg : (' ' :: jsonDumpsL (.list l)).getLast? = some ']' := by
      cases hdj : jsonDumpsL (.list l) with
      | nil => rw [hdj] at hlastD; simp at hlastD
      | cons x t =>
        rw [List.getLast?_cons_cons]
        rw [← hdj, hlastD]
    rw [hg] at ha
    injection ha with ha
    rw [← ha]
    decide)]
  have hhd : (jsonDumpsL (.list l)).head? = some '[' := rfl
  have hval : stripQuotes (pyStrip (' ' :: jsonDumpsL (.list l))) = jsonDumpsL (.list l) := by
    apply stripVal_raw _ '[' hhd (by decide) (by decide)
    intro a ha
    rw [hlastD] at ha
    injection ha with ha
    rw [← ha]
    exact ⟨by decide, by decide⟩
  simp only [hval]
  simp [hhd, mountsReparse]

/-! ## The effect of one save-then-load cycle, field by field -/

/-- The shape of a scalar line holding a string value. -/
theorem scalarLineL_str (k s : String) :
    scalarLineL k (.str s) = k.data ++ ' ' :: '=' :: ' ' :: '"' :: s.data ++ ['"'] := by
  simp [scalarLineL, CVal.pyStr]

/-- Re-application of an optional scalar field on reload. -/
def optApplyScalar (c : Config) (k : String) (c2 : Config) : Config :=
  match getTruthy c k with
  | some v => setKey c2 k v
  | none => c2

/-- Re-application of the `environment` field on reload (JSON round trip). -/
def optApplyEnv (c : Config) (c2 : Config) : Config :=
  match getTruthy c "environment" with
  | some (.dict d) => setKey c2 "environment" (.dict (envReparse d))
  | _ => c2

/-- Re-application of the `mounts` field on reload (JSON round trip). -/
def optApplyMounts (c : Config) (c2 : Config) : Config :=
  match getTruthy c "mounts" with
  | some (.list l) => setKey c2 "mounts" (.list (mountsReparse l))
  | _ => c2

/-- The string a mandatory scalar field carries (its stored string, or the
default when absent). -/
def mandStr (c : Config) (k : String) (dflt : String) : String :=
  match getKey c k with
  | some (.str v) => v
  | some _ => dflt
  | none => dflt

/-- The record produced by loading a file `save_config` wrote: the three
mandatory fields, then each truthy optional field re-applied in emission
order, with the structured fields going through the JSON round trip. -/
def roundTripModel (n : String) (c : Config) : Config :=
  optApplyScalar c "working_dir"
    (optApplyScalar c "arguments"
      (optApplyScalar c "network"
        (optApplyMounts c
          (optApplyEnv c
            (optApplyScalar c "description"
              [("name", .str (mandStr c "name" n)),
               ("type", .str (mandStr c "type" "unknown")),
               ("path", .str (mandStr c "path" ""))])))))

theorem recordWF_props (c : Config) (h : recordWF c = true) :
    scalarKeyOK c "name" = true ∧ scalarKeyOK c "type" = true ∧
    scalarKeyOK c "path" = true ∧ scalarKeyOK c "description" = true ∧
    scalarKeyOK c "network" = true ∧ scalarKeyOK c "arguments" = true ∧
    scalarKeyOK c "working_dir" = true ∧ envTyped c = true ∧ mountsTyped c = true := by
  simp only [recordWF, Bool.and_eq_true] at h
  exact ⟨h.1.1.1.1.1.1.1.1, h.1.1.1.1.1.1.1.2, h.1.1.1.1.1.1.2, h.1.1.1.1.1.2,
    h.1.1.1.1.2, h.1.1.1.2, h.1.1.2, h.1.2, h.2⟩

theorem applyLines_header (c : Config) (n : String) :
    applyLines c (headerLines n) = c := by
  have h1 : ∀ c2 : Config, processLineL c2 (("# Конфигурация приложения: " ++ n).data) = c2 := by
    intro c2
    apply processLineL_skip
    refine Or.inr (Or.inl ?_)
    rw [String.data_append]
    rw [head?_appendL _ _ (by decide)]
    decide
  have h2 : ∀ c2 : Config, processLineL c2 ("# Сгенерировано Apollo 2.1.0".data) = c2 :=
    fun c2 => processLineL_skip c2 _ (Or.inr (Or.inl (by decide)))
  have h3 : ∀ c2 : Config, processLineL c2 ("# Измените параметры по необходимости".data) = c2 :=
    fun c2 => processLineL_skip c2 _ (Or.inr (Or.inl (by decide)))
  have h4 : ∀ c2 : Config, processLineL c2 [] = c2 :=
    fun c2 => processLineL_skip c2 [] (Or.inl rfl)
  show processLineL (processLineL (processLineL (processLineL c
      (("# Конфигурация приложения: " ++ n).data))
      ("# Сгенерировано Apollo 2.1.0".data))
      ("# Измените параметры по необходимости".data)) [] = c
  rw [h1, h2, h3, h4]

theorem mandLine_scalar (c : Config) (k dflt : String)
    (hs : scalarKeyOK c k = true) :
    mandLine c k dflt = scalarLineL k (.str (mandStr c k dflt)) := by
  unfold mandLine mandStr
  unfold scalarKeyOK at hs
  cases hg : getKey c k with
  | none => rfl
  | some v =>
    rw [hg] at hs
    cases v with
    | str s => rfl
    | dict d => simp at hs
    | list l => simp at hs
    | pynone => simp at hs

theorem mandStr_ok (c : Config) (k dflt : String)
    (hs : scalarKeyOK c k = true) (hd : scalarOK dflt = true) :
    scalarOK (mandStr c k dflt) = true := by
  unfold mandStr
  unfold scalarKeyOK at hs
  cases hg : getKey c k with
  | none => exact hd
  | some v =>
    rw [hg] at hs
    cases v with
    | str s => exact hs
    | dict d => simp at hs
    | list l => simp at hs
    | pynone => simp at hs

theorem getTruthy_scalar (c : Config) (k : String) (hs : scalarKeyOK c k = true) :
    getTruthy c k = none ∨
      ∃ s, getTruthy c k = some (.str s) ∧ scalarOK s = true ∧ s ≠ "" := by
  unfold getTruthy
  unfold scalarKeyOK at hs
  cases hg : getKey c k with
  | none => left; rfl
  | some v =>
    rw [hg] at hs
    cases v with
    | str s =>
      by_cases hse : s = ""
      · left; subst hse; simp [CVal.truthy]
      · right; exact ⟨s, by simp [CVal.truthy, hse], by simpa using hs, hse⟩
    | dict d => simp at hs
    | list l => simp at hs
    | pynone => simp at hs

theorem getTruthy_env (c : Config) (he : envTyped c = true) :
    getTruthy c "environment" = none ∨
      ∃ d, getTruthy c "environment" = some (.dict d) ∧ d ≠ [] := by
  unfold getTruthy
  unfold envTyped at he
  cases hg : getKey c "environment" with
  | none => left; rfl
  | some v =>
    rw [hg] at he
    cases v with
    | dict d =>
      by_cases hde : d = []
      · left; subst hde; simp [CVal.truthy]
      · right; exact ⟨d, by simp [CVal.truthy, hde], hde⟩
    | str s => simp at he
    | list l => simp at he
    | pynone => simp at he

theorem getTruthy_mounts (c : Config) (hm : mountsTyped c = true) :
    getTruthy c "mounts" = none ∨
      ∃ l, getTruthy c "mounts" = some (.list l) ∧ l ≠ [] := by
  unfold getTruthy
  unfold mountsTyped at hm
  cases hg : getKey c "mounts" with
  | none => left; rfl
  | some v =>
    rw [hg] at hm
    cases v with
    | list l =>
      by_cases hle : l = []
      · left; subst hle; simp [CVal.truthy]
      · right; exact ⟨l, by simp [CVal.truthy, hle], hle⟩
    | str s => simp at hm
    | dict d => simp at hm
    | pynone => simp at hm

theorem applyLines_optScalar (c c2 : Config) (k : String)
    (hkey : keyShapeOK k = true) (hk1 : k ≠ "environment") (hk2 : k ≠ "mounts")
    (hs : scalarKeyOK c k = true) :
    applyLines c2 (optScalarLines c k) = optApplyScalar c k c2 := by
  unfold optScalarLines optApplyScalar
  rcases getTruthy_scalar c k hs with hg | ⟨s, hg, hsok, _⟩
  · rw [hg]; rfl
  · rw [hg]
    show processLineL c2 (scalarLineL k (.str s)) = setKey c2 k (.str s)
    exact processLineL_scalarLine c2 k s hkey hk1 hk2 hsok

theorem applyLines_optEnv (c c2 : Config) (he : envTyped c = true) :
    applyLines c2 (optStructLines c "environment") = optApplyEnv c c2 := by
  unfold optStructLines optApplyEnv
  rcases getTruthy_env c he with hg | ⟨d, hg, _⟩
  · rw [hg]; rfl
  · rw [hg]
    show processLineL c2 (structLineL "environment" (.dict d)) =
      setKey c2 "environment" (.dict (envReparse d))
    exact processLineL_envLine c2 d

theorem applyLines_optMounts (c c2 : Config) (hm : mountsTyped c = true) :
    applyLines c2 (optStructLines c "mounts") = optApplyMounts c c2 := by
  unfold optStructLines optApplyMounts
  rcases getTruthy_mounts c hm with hg | ⟨l, hg, _⟩
  · rw [hg]; rfl
  · rw [hg]
    show processLineL c2 (structLineL "mounts" (.list l)) =
      setKey c2 "mounts" (.list (mountsReparse l))
    exact processLineL_mountsLine c2 l

theorem scalarLineL_no_nl (k s : String)
    (hk : '\n' ∉ k.data) (hs : '\n' ∉ s.data) :
    '\n' ∉ scalarLineL k (.str s) := by
  rw [scalarLineL_str]
  intro hm
  rcases List.mem_append.mp hm with hm | hm
  · rcases List.mem_append.mp hm with hm | hm
    · exact hk hm
    · rcases List.mem_cons.mp hm with hm | hm
      · simp at hm
      · rcases List.mem_cons.mp hm with hm | hm
        · simp at hm
        · rcases List.mem_cons.mp hm with hm | hm
          · simp at hm
          · rcases List.mem_cons.mp hm with hm | hm
            · simp at hm
            · exact hs hm
  · simp at hm

theorem structLineL_no_nl (k : String) (v : CVal) (hk : '\n' ∉ k.data) :
    '\n' ∉ structLineL k v := by
  unfold structLineL
  intro hm
  rcases List.mem_append.mp hm with hm | hm
  · exact hk hm
  · rcases List.mem_cons.mp hm with hm | hm
    · simp at hm
    · rcases List.mem_cons.mp hm with hm | hm
      · simp at hm
      · rcases List.mem_cons.mp hm with hm | hm
        · simp at hm
        · exact jsonDumpsL_no_nl v hm

theorem saveLines_no_nl (n : String) (c : Config)
    (hwf : recordWF c = true) (hn : scalarOK n = true) :
    ∀ l ∈ saveLines n c, '\n' ∉ l := by
  obtain ⟨hname, htype, hpath, hdesc, hnet, hargs, hwd, henv, hmnt⟩ := recordWF_props c hwf
  have hnn : '\n' ∉ n.data := (scalarOK_props n hn).1
  have hopt : ∀ (k : String), '\n' ∉ k.data → scalarKeyOK c k = true →
      ∀ x ∈ optScalarLines c k, '\n' ∉ x := by
    intro k hk hsk x hx
    unfold optScalarLines at hx
    rcases getTruthy_scalar c k hsk with hg | ⟨s, hg, hgs, _⟩
    · rw [hg] at hx; simp at hx
    · rw [hg] at hx
      rcases List.mem_cons.mp hx with hx | hx
      · subst hx
        exact scalarLineL_no_nl k s hk (scalarOK_props s hgs).1
      · simp at hx
  have hoptE : ∀ x ∈ optStructLines c "environment", '\n' ∉ x := by
    intro x hx
    unfold optStructLines at hx
    rcases getTruthy_env c henv with hg | ⟨d, hg, _⟩
    · rw [hg] at hx; simp at hx
    · rw [hg] at hx
      rcases List.mem_cons.mp hx with hx | hx
      · subst hx
        exact structLineL_no_nl _ _ (by decide)
      · simp at hx
  have hoptM : ∀ x ∈ optStructLines c "mounts", '\n' ∉ x := by
    intro x hx
    unfold optStructLines at hx
    rcases getTruthy_mounts c hmnt with hg | ⟨l, hg, _⟩
    · rw [hg] at hx; simp at hx
    · rw [hg] at hx
      rcases List.mem_cons.mp hx with hx | hx
      · subst hx
        exact structLineL_no_nl _ _ (by decide)
      · simp at hx
  intro l hl
  unfold saveLines at hl
  rcases List.mem_append.mp hl with hl | hl
  · rcases List.mem_append.mp hl with hl | hl
    · rcases List.mem_append.mp hl with hl | hl
      · rcases List.mem_append.mp hl with hl | hl
        · rcases List.mem_append.mp hl with hl | hl
          · rcases List.mem_append.mp hl with hl | hl
            · rcases List.mem_append.mp hl with hl | hl
              · unfold headerLines at hl
                rcases List.mem_cons.mp hl with hl | hl
                · subst hl
                  rw [String.data_append]
                  intro hm
                  rcases List.mem_append.mp hm with hm | hm
                  · exact absurd hm (by decide)
                  · exact hnn hm
                · rcases List.mem_cons.mp hl with hl | hl
                  · subst hl; decide
                  · rcases List.mem_cons.mp hl with hl | hl
                    · subst hl; decide
                    · rcases List.mem_cons.mp hl with hl | hl
                      · subst hl; simp
                      · simp at hl
              · rcases List.mem_cons.mp hl with hl | hl
                · subst hl
                  rw [mandLine_scalar c "name" n hname]
                  exact scalarLineL_no_nl _ _ (by decide)
                    (scalarOK_props _ (mandStr_ok c "name" n hname hn)).1
                · rcases List.mem_cons.mp hl with hl | hl
                  · subst hl
                    rw [mandLine_scalar c "type" "unknown" htype]
                    exact scalarLineL_no_nl _ _ (by decide)
                      (scalarOK_props _ (mandStr_ok c "type" "unknown" htype (by decide))).1
                  · rcases List.mem_cons.mp hl with hl | hl
                    · subst hl
                      rw [mandLine_scalar c "path" "" hpath]
                      exact scalarLineL_no_nl _ _ (by decide)
                        (scalarOK_props _ (mandStr_ok c "path" "" hpath (by decide))).1
                    · simp at hl
            · exact hopt "description" (by decide) hdesc l hl
          · exact hoptE l hl
        · exact hoptM l hl
      · exact hopt "network" (by decide) hnet l hl
    · exact hopt "arguments" (by decide) hargs l hl
  · exact hopt "working_dir" (by decide) hwd l hl

/-- Loading a file written by `save_config` yields exactly the
`roundTripModel` record: mandatory fields recovered, truthy optional
scalars recovered, structured fields reparsed from their JSON text. -/
theorem loadConfig_saveConfig (n : String) (c : Config)
    (hwf : recordWF c = true) (hn : scalarOK n = true) :
    loadConfig n (some (saveConfig n c)) = roundTripModel n c := by
  obtain ⟨hname, htype, hpath, hdesc, hnet, hargs, hwd, henv, hmnt⟩ := recordWF_props c hwf
  show applyLines [] (splitLinesL (saveConfig n c).data) = roundTripModel n c
  rw [show (saveConfig n c).data = joinNL (saveLines n c) from rfl]
  rw [splitLinesL_joinNL _ (by simp [saveLines, headerLines]) (saveLines_no_nl n c hwf hn)]
  unfold saveLines
  rw [applyLines_append, applyLines_append, applyLines_append, applyLines_append,
    applyLines_append, applyLines_append, applyLines_append]
  rw [applyLines_header]
  have hm1 : applyLines []
      [mandLine c "name" n, mandLine c "type" "unknown", mandLine c "path" ""] =
      [("name", CVal.str (mandStr c "name" n)),
       ("type", CVal.str (mandStr c "type" "unknown")),
       ("path", CVal.str (mandStr c "path" ""))] := by
    show processLineL (processLineL (processLineL []
      (mandLine c "name" n)) (mandLine c "type" "unknown")) (mandLine c "path" "") = _
    rw [mandLine_scalar c "name" n hname,
      processLineL_scalarLine _ _ _ (by decide) (by decide) (by decide)
        (mandStr_ok c "name" n hname hn)]
    rw [mandLine_scalar c "type" "unknown" htype,
      processLineL_scalarLine _ _ _ (by decide) (by decide) (by decide)
        (mandStr_ok c "type" "unknown" htype (by decide))]
    rw [mandLine_scalar c "path" "" hpath,
      processLineL_scalarLine _ _ _ (by decide) (by decide) (by decide)
        (mandStr_ok c "path" "" hpath (by decide))]
    simp [setKey]
  rw [hm1]
  rw [applyLines_optScalar c _ "description" (by decide) (by decide) (by decide) hdesc]
  rw [applyLines_optEnv c _ henv]
  rw [applyLines_optMounts c _ hmnt]
  rw [applyLines_optScalar c _ "network" (by decide) (by decide) (by decide) hnet]
  rw [applyLines_optScalar c _ "arguments" (by decide) (by decide) (by decide) hargs]
  rw [applyLines_optScalar c _ "working_dir" (by decide) (by decide) (by decide) hwd]
  rfl

/-! ## Field lookups on the reloaded record -/

theorem getKey_optApplyScalar_ne (c c2 : Config) (k k2 : String) (h : k ≠ k2) :
    getKey (optApplyScalar c k c2) k2 = getKey c2 k2 := by
  unfold optApplyScalar
  cases getTruthy c k with
  | none => rfl
  | some v => exact getKey_setKey_ne c2 k k2 v h

theorem getKey_optApplyScalar_self (c c2 : Config) (k : String) :
    getKey (optApplyScalar c k c2) k =
      match getTruthy c k with
      | some v => some v
      | none => getKey c2 k := by
  unfold optApplyScalar
  cases getTruthy c k with
  | none => rfl
  | some v => exact getKey_setKey_same c2 k v

theorem getKey_optApplyEnv_ne (c c2 : Config) (k2 : String) (h : k2 ≠ "environment") :
    getKey (optApplyEnv c c2) k2 = getKey c2 k2 := by
  unfold optApplyEnv
  cases getTruthy c "environment" with
  | none => rfl
  | some v =>
    cases v with
    | dict d => exact getKey_setKey_ne _ _ _ _ (fun he => h he.symm)
    | str s => rfl
    | list l => rfl
    | pynone => rfl

theorem getKey_optApplyEnv_self (c c2 : Config) :
    getKey (optApplyEnv c c2) "environment" =
      match getTruthy c "environment" with
      | some (.dict d) => some (.dict (envReparse d))
      | _ => getKey c2 "environment" := by
  unfold optApplyEnv
  cases getTruthy c "environment" with
  | none => rfl
  | some v =>
    cases v with
    | dict d => exact getKey_setKey_same _ _ _
    | str s => rfl
    | list l => rfl
    | pynone => rfl

theorem getKey_optApplyMounts_ne (c c2 : Config) (k2 : String) (h : k2 ≠ "mounts") :
    getKey (optApplyMounts c c2) k2 = getKey c2 k2 := by
  unfold optApplyMounts
  cases getTruthy c "mounts" with
  | none => rfl
  | some v =>
    cases v with
    | list l => exact getKey_setKey_ne _ _ _ _ (fun he => h he.symm)
    | str s => rfl
    | dict d => rfl
    | pynone => rfl

theorem getKey_optApplyMounts_self (c c2 : Config) :
    getKey (optApplyMounts c c2) "mounts" =
      match getTruthy c "mounts" with
      | some (.list l) => some (.list (mountsReparse l))
      | _ => getKey c2 "mounts" := by
  unfold optApplyMounts
  cases getTruthy c "mounts" with
  | none => rfl
  | some v =>
    cases v with
    | list l => exact getKey_setKey_same _ _ _
    | str s => rfl
    | dict d => rfl
    | pynone => rfl

theorem roundTripModel_getKey (n : String) (c : Config) :
    getKey (roundTripModel n c) "name" = some (.str (mandStr c "name" n)) ∧
    getKey (roundTripModel n c) "type" = some (.str (mandStr c "type" "unknown")) ∧
    getKey (roundTripModel n c) "path" = some (.str (mandStr c "path" "")) ∧
    getKey (roundTripModel n c) "description" =
      (match getTruthy c "description" with | some v => some v | none => none) ∧
    getKey (roundTripModel n c) "environment" =
      (match getTruthy c "environment" with
       | some (.dict d) => some (.dict (envReparse d))
       | _ => none) ∧
    getKey (roundTripModel n c) "mounts" =
      (match getTruthy c "mounts" with
       | some (.list l) => some (.list (mountsReparse l))
       | _ => none) ∧
    getKey (roundTripModel n c) "network" =
      (match getTruthy c "network" with | some v => some v | none => none) ∧
    getKey (roundTripModel n c) "arguments" =
      (match getTruthy c "arguments" with | some v => some v | none => none) ∧
    getKey (roundTripModel n c) "working_dir" =
      (match getTruthy c "working_dir" with | some v => some v | none => none) := by
  unfold roundTripModel
  refine ⟨?_, ?_, ?_, ?_, ?_, ?_, ?_, ?_, ?_⟩
  · rw [getKey_optApplyScalar_ne _ _ _ _ (by decide),
      getKey_optApplyScalar_ne _ _ _ _ (by decide),
      getKey_optApplyScalar_ne _ _ _ _ (by decide),
      getKey_optApplyMounts_ne _ _ _ (by decide),
      getKey_optApplyEnv_ne _ _ _ (by decide),
      getKey_optApplyScalar_ne _ _ _ _ (by decide)]
    simp [getKey]
  · rw [getKey_optApplyScalar_ne _ _ _ _ (by decide),
      getKey_optApplyScalar_ne _ _ _ _ (by decide),
      getKey_optApplyScalar_ne _ _ _ _ (by decide),
      getKey_optApplyMounts_ne _ _ _ (by decide),
      getKey_optApplyEnv_ne _ _ _ (by decide),
      getKey_optApplyScalar_ne _ _ _ _ (by decide)]
    simp [getKey]
  · rw [getKey_optApplyScalar_ne _ _ _ _ (by decide),
      getKey_optApplyScalar_ne _ _ _ _ (by decide),
      getKey_optApplyScalar_ne _ _ _ _ (by decide),
      getKey_optApplyMounts_ne _ _ _ (by decide),
      getKey_optApplyEnv_ne _ _ _ (by decide),
      getKey_optApplyScalar_ne _ _ _ _ (by decide)]
    simp [getKey]
  · rw [getKey_optApplyScalar_ne _ _ _ _ (by decide),
      getKey_optApplyScalar_ne _ _ _ _ (by decide),
      getKey_optApplyScalar_ne _ _ _ _ (by decide),
      getKey_optApplyMounts_ne _ _ _ (by decide),
      getKey_optApplyEnv_ne _ _ _ (by decide),
      getKey_optApplyScalar_self]
    simp [getKey]
  · rw [getKey_optApplyScalar_ne _ _ _ _ (by decide),
      getKey_optApplyScalar_ne _ _ _ _ (by decide),
      getKey_optApplyScalar_ne _ _ _ _ (by decide),
      getKey_optApplyMounts_ne _ _ _ (by decide),
      getKey_optApplyEnv_self,
      getKey_optApplyScalar_ne _ _ _ _ (by decide)]
    simp [getKey]
  · rw [getKey_optApplyScalar_ne _ _ _ _ (by decide),
      getKey_optApplyScalar_ne _ _ _ _ (by decide),
      getKey_optApplyScalar_ne _ _ _ _ (by decide),
      getKey_optApplyMounts_self,
      getKey_optApplyEnv_ne _ _ _ (by decide),
      getKey_optApplyScalar_ne _ _ _ _ (by decide)]
    simp [getKey]
  · rw [getKey_optApplyScalar_ne _ _ _ _ (by decide),
      getKey_optApplyScalar_ne _ _ _ _ (by decide),
      getKey_optApplyScalar_self,
      getKey_optApplyMounts_ne _ _ _ (by decide),
      getKey_optApplyEnv_ne _ _ _ (by decide),
      getKey_optApplyScalar_ne _ _ _ _ (by decide)]
    simp [getKey]
  · rw [getKey_optApplyScalar_ne _ _ _ _ (by decide),
      getKey_optApplyScalar_self,
      getKey_optApplyScalar_ne _ _ _ _ (by decide),
      getKey_optApplyMounts_ne _ _ _ (by decide),
      getKey_optApplyEnv_ne _ _ _ (by decide),
      getKey_optApplyScalar_ne _ _ _ _ (by decide)]
    simp [getKey]
  · rw [getKey_optApplyScalar_self,
      getKey_optApplyScalar_ne _ _ _ _ (by decide),
      getKey_optApplyScalar_ne _ _ _ _ (by decide),
      getKey_optApplyMounts_ne _ _ _ (by decide),
      getKey_optApplyEnv_ne _ _ _ (by decide),
      getKey_optApplyScalar_ne _ _ _ _ (by decide)]
    simp [getKey]

theorem getTruthy_eq_some (c : Config) (k : String) (v : CVal)
    (h : getTruthy c k = some v) : getKey c k = some v ∧ v.truthy = true := by
  unfold getTruthy at h
  cases hg : getKey c k with
  | none => rw [hg] at h; simp at h
  | some w =>
    rw [hg] at h
    change (if w.truthy = true then some w else none) = some v at h
    by_cases hw : w.truthy = true
    · rw [if_pos hw] at h
      injection h with h
      subst h
      exact ⟨rfl, hw⟩
    · rw [if_neg hw] at h
      simp at h

/-- The filtering `config.get(k)` applies: keep present truthy values. -/
def truthyFilter (o : Option CVal) : Option CVal :=
  match o with
  | some v => if v.truthy then some v else none
  | none => none

theorem getTruthy_eq_filter (c1 : Config) (k : String) :
    getTruthy c1 k = truthyFilter (getKey c1 k) := by
  unfold getTruthy truthyFilter
  rfl

theorem optScalarLines_congrT (c1 c1' : Config) (k : String)
    (h : getTruthy c1 k = getTruthy c1' k) :
    optScalarLines c1 k = optScalarLines c1' k := by
  unfold optScalarLines
  rw [h]

theorem optStructLines_congrT (c1 c1' : Config) (k : String)
    (h : getTruthy c1 k = getTruthy c1' k) :
    optStructLines c1 k = optStructLines c1' k := by
  unfold optStructLines
  rw [h]

/-- C2: `save(name, load(name))` round-trip stability, as amended. The
original claim fails (see `C2_counterexample`): scalar fields can also
lose information on the parse, because `strip` removes quote characters
at the ends of a stored value and raw newlines inside a value split it
into extra config lines. Amended claim: for a record whose fields have
their expected types, whose scalar strings carry no newline or carriage
return and neither start nor end with a quote character (`recordWF`, and
the same for the application name), and in which the structured fields
`environment`/`mounts` lost no information on the previous parse (the
claim's own assumption, stated as the two hypotheses), re-saving the
loaded record reproduces the file byte for byte. -/
theorem C2_save_load_idempotent (n : String) (c : Config)
    (hwf : recordWF c = true) (hn : scalarOK n = true)
    (henvLoss : ∀ d, getKey c "environment" = some (.dict d) → d ≠ [] →
        getKey (loadConfig n (some (saveConfig n c))) "environment" = some (.dict d))
    (hmntLoss : ∀ l, getKey c "mounts" = some (.list l) → l ≠ [] →
        getKey (loadConfig n (some (saveConfig n c))) "mounts" = some (.list l)) :
    saveConfig n (loadConfig n (some (saveConfig n c))) = saveConfig n c := by
  obtain ⟨hname, htype, hpath, hdesc, hnet, hargs, hwd, henv, hmnt⟩ := recordWF_props c hwf
  rw [loadConfig_saveConfig n c hwf hn] at henvLoss hmntLoss ⊢
  obtain ⟨gname, gtype, gpath, gdesc, genv, gmnt, gnet, gargs, gwd⟩ := roundTripModel_getKey n c
  have tdesc : getTruthy (roundTripModel n c) "description" = getTruthy c "description" := by
    rw [getTruthy_eq_filter (roundTripModel n c) "description", gdesc]
    rcases getTruthy_scalar c "description" hdesc with hg | ⟨s, hg, hsok, hne⟩
    · rw [hg]
      simp [truthyFilter]
    · rw [hg]
      simp [truthyFilter, CVal.truthy, hne]
  have tnet : getTruthy (roundTripModel n c) "network" = getTruthy c "network" := by
    rw [getTruthy_eq_filter (roundTripModel n c) "network", gnet]
    rcases getTruthy_scalar c "network" hnet with hg | ⟨s, hg, hsok, hne⟩
    · rw [hg]
      simp [truthyFilter]
    · rw [hg]
      simp [truthyFilter, CVal.truthy, hne]
  have targs : getTruthy (roundTripModel n c) "arguments" = getTruthy c "arguments" := by
    rw [getTruthy_eq_filter (roundTripModel n c) "arguments", gargs]
    rcases getTruthy_scalar c "arguments" hargs with hg | ⟨s, hg, hsok, hne⟩
    · rw [hg]
      simp [truthyFilter]
    · rw [hg]
      simp [truthyFilter, CVal.truthy, hne]
  have twd : getTruthy (roundTripModel n c) "working_dir" = getTruthy c "working_dir" := by
    rw [getTruthy_eq_filter (roundTripModel n c) "working_dir", gwd]
    rcases getTruthy_scalar c "working_dir" hwd with hg | ⟨s, hg, hsok, hne⟩
    · rw [hg]
      simp [truthyFilter]
    · rw [hg]
      simp [truthyFilter, CVal.truthy, hne]
  have tenv : getTruthy (roundTripModel n c) "environment" = getTruthy c "environment" := by
    rw [getTruthy_eq_filter (roundTripModel n c) "environment", genv]
    rcases getTruthy_env c henv with hg | ⟨d, hg, hd⟩
    · rw [hg]
      simp [truthyFilter]
    · obtain ⟨hgk, _⟩ := getTruthy_eq_some c "environment" _ hg
      have h2 := henvLoss d hgk hd
      rw [genv] at h2
      simp only [hg] at h2 ⊢
      have hrep : envReparse d = d := by
        injection h2 with h3
        injection h3
      rw [hrep]
      simp [truthyFilter, CVal.truthy, hd]
  have tmnt : getTruthy (roundTripModel n c) "mounts" = getTruthy c "mounts" := by
    rw [getTruthy_eq_filter (roundTripModel n c) "mounts", gmnt]
    rcases getTruthy_mounts c hmnt with hg | ⟨l, hg, hl⟩
    · rw [hg]
      simp [truthyFilter]
    · obtain ⟨hgk, _⟩ := getTruthy_eq_some c "mounts" _ hg
      have h2 := hmntLoss l hgk hl
      rw [gmnt] at h2
      simp only [hg] at h2 ⊢
      have hrep : mountsReparse l = l := by
        injection h2 with h3
        injection h3
      rw [hrep]
      simp [truthyFilter, CVal.truthy, hl]
  have mname : mandLine (roundTripModel n c) "name" n = mandLine c "name" n := by
    rw [mandLine_scalar c "name" n hname]
    unfold mandLine
    rw [gname]
    rfl
  have mtype : mandLine (roundTripModel n c) "type" "unknown" = mandLine c "type" "unknown" := by
    rw [mandLine_scalar c "type" "unknown" htype]
    unfold mandLine
    rw [gtype]
    rfl
  have mpath : mandLine (roundTripModel n c) "path" "" = mandLine c "path" "" := by
    rw [mandLine_scalar c "path" "" hpath]
    unfold mandLine
    rw [gpath]
    rfl
  unfold saveConfig
  unfold saveLines
  rw [mname, mtype, mpath,
    optScalarLines_congrT _ _ _ tdesc,
    optStructLines_congrT _ _ _ tenv,
    optStructLines_congrT _ _ _ tmnt,
    optScalarLines_congrT _ _ _ tnet,
    optScalarLines_congrT _ _ _ targs,
    optScalarLines_congrT _ _ _ twd]

/-- C2 counterexample: the claim as stated is false. The record has no
structured fields at all (so "no structured field lost information"
holds vacuously), yet re-saving the loaded record differs byte-wise:
`description` holds `'x'` (quoted with apostrophes), `save_config` writes
`description = "'x'"`, and on reload `strip` removes the apostrophes,
so the second save writes `description = "x"`. -/
theorem C2_counterexample :
    (getKey [("name", CVal.str "app"),
        ("description", CVal.str (String.mk [apos, 'x', apos]))] "environment" = none ∧
     getKey [("name", CVal.str "app"),
        ("description", CVal.str (String.mk [apos, 'x', apos]))] "mounts" = none) ∧
    saveConfig "app" (loadConfig "app" (some (saveConfig "app"
      [("name", CVal.str "app"),
       ("description", CVal.str (String.mk [apos, 'x', apos]))]))) ≠
      saveConfig "app"
        [("name", CVal.str "app"),
         ("description", CVal.str (String.mk [apos, 'x', apos]))] := by
  exact ⟨⟨by decide, by decide⟩, by decide⟩

/-- A concrete well-formed record for the C2 witness. -/
def cWitness : Config :=
  [("name", .str "app"), ("type", .str "exe"), ("path", .str "/tmp/a.exe"),
   ("environment", .dict [("A", "B")]), ("mounts", .list ["x:y"]),
   ("network", .str "nat")]

/-- Witness for C2 at a concrete record with nonempty structured fields:
all hypotheses hold and the file round-trips byte for byte. -/
theorem C2_save_load_idempotent_witness :
    saveConfig "app" (loadConfig "app" (some (saveConfig "app" cWitness))) =
      saveConfig "app" cWitness := by
  refine C2_save_load_idempotent "app" cWitness (by decide) (by decide) ?_ ?_
  · intro d hd hne
    have h0 : getKey cWitness "environment" = some (CVal.dict [("A", "B")]) := by decide
    have h3 : [("A", "B")] = d := CVal.dict.inj (Option.some.inj (h0.symm.trans hd))
    subst h3
    decide
  · intro l hl hne
    have h0 : getKey cWitness "mounts" = some (CVal.list ["x:y"]) := by decide
    have h3 : ["x:y"] = l := CVal.list.inj (Option.some.inj (h0.symm.trans hl))
    subst h3
    decide

/-! ## C3: tolerance of the loader -/

theorem processLineL_malformed_env (c : Config) (v : List Char)
    (h1 : v.head? = some lbrace) (h2 : v.getLast? = some rbrace)
    (h3 : parseFlatDictL (replaceAposL v) = none) :
    processLineL c (("environment = ").data ++ v) =
      setKey c "environment" (.dict []) := by
  have hl : ("environment = ").data ++ v = "environment".data ++ ' ' :: '=' :: (' ' :: v) := by
    rw [show ("environment = ").data = "environment".data ++ [' ', '=', ' '] from by decide]
    rw [List.append_assoc]
    rfl
  obtain ⟨hk0, hkh, hkl, hke⟩ := keyShapeOK_props "environment" (by decide)
  rw [hl]
  rw [processLineL_keyval c "environment" _ hk0 hkh hkl hke (by
    intro a ha
    cases v with
    | nil => simp at h1
    | cons x t =>
      rw [List.getLast?_cons_cons] at ha
      rw [h2] at ha
      injection ha with ha
      rw [← ha]
      decide)]
  have hval : stripQuotes (pyStrip (' ' :: v)) = v := by
    apply stripVal_raw v lbrace h1 (by decide) (by decide)
    intro a ha
    rw [h2] at ha
    injection ha with ha
    rw [← ha]
    exact ⟨by decide, by decide⟩
  simp [hval, h1, h3]

theorem processLineL_malformed_mounts (c : Config) (v : List Char)
    (h1 : v.head? = some '[') (h2 : v.getLast? = some ']')
    (h3 : parseFlatListL (replaceAposL v) = none) :
    processLineL c (("mounts = ").data ++ v) = setKey c "mounts" (.list []) := by
  have hl : ("mounts = ").data ++ v = "mounts".data ++ ' ' :: '=' :: (' ' :: v) := by
    rw [show ("mounts = ").data = "mounts".data ++ [' ', '=', ' '] from by decide]
    rw [List.append_assoc]
    rfl
  obtain ⟨hk0, hkh, hkl, hke⟩ := keyShapeOK_props "mounts" (by decide)
  rw [hl]
  rw [processLineL_keyval c "mounts" _ hk0 hkh hkl hke (by
    intro a ha
    cases v with
    | nil => simp at h1
    | cons x t =>
      rw [List.getLast?_cons_cons] at ha
      rw [h2] at ha
      injection ha with ha
      rw [← ha]
      decide)]
  have hval : stripQuotes (pyStrip (' ' :: v)) = v := by
    apply stripVal_raw v '[' h1 (by decide) (by decide)
    intro a ha
    rw [h2] at ha
    injection ha with ha
    rw [← ha]
    exact ⟨by decide, by decide⟩
  simp [hval, h1, h3]

/-- C3: `load_config` never fails, for any name and any file content — in
the embedding it is a total function. When no config file exists it
returns the fully defaulted record, whose kind is `unknown` and whose
network mode is `nat`. Blank lines (whitespace-only), lines starting
with `#`, and lines without `=` are skipped without effect. A malformed
structured value (a brace-delimited `environment` value or a
bracket-delimited `mounts` value that the JSON parse rejects) degrades
that one field to an empty mapping/list, and the rest of the load
proceeds unaffected around the malformed line. -/
theorem C3_load_never_fails (n : String) (c : Config) (line v : List Char)
    (pre post : List (List Char)) :
    (loadConfig n none = defaultConfig n) ∧
    (getKey (defaultConfig n) "type" = some (.str "unknown") ∧
     getKey (defaultConfig n) "network" = some (.str "nat")) ∧
    ((pyStrip line = [] ∨ line.head? = some '#' ∨ '=' ∉ line) →
      processLineL c line = c) ∧
    (v.head? = some lbrace → v.getLast? = some rbrace →
      parseFlatDictL (replaceAposL v) = none →
      processLineL c (("environment = ").data ++ v) =
        setKey c "environment" (.dict [])) ∧
    (v.head? = some '[' → v.getLast? = some ']' →
      parseFlatListL (replaceAposL v) = none →
      processLineL c (("mounts = ").data ++ v) = setKey c "mounts" (.list [])) ∧
    (v.head? = some lbrace → v.getLast? = some rbrace →
      parseFlatDictL (replaceAposL v) = none →
      applyLines c (pre ++ ((("environment = ").data ++ v) :: post)) =
        applyLines (setKey (applyLines c pre) "environment" (.dict [])) post) := by
  refine ⟨rfl, ⟨by simp [defaultConfig, getKey], by simp [defaultConfig, getKey]⟩,
    processLineL_skip c line, processLineL_malformed_env c v,
    processLineL_malformed_mounts c v, ?_⟩
  intro h1 h2 h3
  rw [show pre ++ ((("environment = ").data ++ v) :: post) =
    (pre ++ [("environment = ").data ++ v]) ++ post from by simp]
  rw [applyLines_append, applyLines_append]
  congr 1
  show processLineL (applyLines c pre) (("environment = ").data ++ v) = _
  exact processLineL_malformed_env (applyLines c pre) v h1 h2 h3

/-- Witness for C3 at concrete inputs: a missing file yields the default
record; a comment line, a whitespace line and an `=`-free line are
skipped; a malformed `environment` value degrades to an empty mapping. -/
theorem C3_load_never_fails_witness :
    loadConfig "app" none = defaultConfig "app" ∧
    processLineL [] ("# comment".data) = [] ∧
    processLineL [] ("   ".data) = [] ∧
    processLineL [] ("no equals sign".data) = [] ∧
    processLineL [] (("environment = ").data ++ ("\x7bbroken\x7d").data) =
      setKey [] "environment" (.dict []) := by
  refine ⟨(C3_load_never_fails "app" [] [] [] [] []).1,
    (C3_load_never_fails "app" [] ("# comment".data) [] [] []).2.2.1
      (Or.inr (Or.inl (by decide))),
    (C3_load_never_fails "app" [] ("   ".data) [] [] []).2.2.1
      (Or.inl (by decide)),
    (C3_load_never_fails "app" [] ("no equals sign".data) [] [] []).2.2.1
      (Or.inr (Or.inr (by decide))),
    (C3_load_never_fails "app" [] [] (("\x7bbroken\x7d").data) [] []).2.2.2.1
      (by decide) (by decide) (by decide)⟩

/-! ## C10: optional fields are emitted only when non-empty -/

/-- C10 counterexample: the claim as stated is false for adversarial
records. A record whose `network` is absent but whose `description`
contains a raw newline followed by `network = "host"` produces a saved
file that does contain a `network` line, and the subsequent load returns
a record with that key. -/
theorem C10_counterexample :
    getTruthy [("name", CVal.str "x"),
      ("description", CVal.str "d\nnetwork = \"host\"")] "network" = none ∧
    getKey (loadConfig "x" (some (saveConfig "x"
      [("name", CVal.str "x"),
       ("description", CVal.str "d\nnetwork = \"host\"")]))) "network" =
      some (CVal.str "host") := by
  exact ⟨by decide, by decide⟩

/-- C10 (amended): for well-formed records (fields of their expected
types, scalar values without raw line breaks or quote-edged content),
`save_config` emits the optional fields `description`, `environment`,
`mounts`, `network`, `arguments` and `working_dir` only when non-empty:
when such a field is empty (absent or falsy) the saved file contains no
line for it and a subsequent load returns a record lacking that key
entirely; only `name`, `type` and `path` are present in every saved
file; hence load after save is not the identity on records with empty
optional fields (witnessed by the default record, whose empty optional
fields disappear). -/
theorem C10_optional_fields (n : String) (c : Config)
    (hwf : recordWF c = true) (hn : scalarOK n = true) :
    (getTruthy c "description" = none → optScalarLines c "description" = [] ∧
        getKey (loadConfig n (some (saveConfig n c))) "description" = none) ∧
    (getTruthy c "environment" = none → optStructLines c "environment" = [] ∧
        getKey (loadConfig n (some (saveConfig n c))) "environment" = none) ∧
    (getTruthy c "mounts" = none → optStructLines c "mounts" = [] ∧
        getKey (loadConfig n (some (saveConfig n c))) "mounts" = none) ∧
    (getTruthy c "network" = none → optScalarLines c "network" = [] ∧
        getKey (loadConfig n (some (saveConfig n c))) "network" = none) ∧
    (getTruthy c "arguments" = none → optScalarLines c "arguments" = [] ∧
        getKey (loadConfig n (some (saveConfig n c))) "arguments" = none) ∧
    (getTruthy c "working_dir" = none → optScalarLines c "working_dir" = [] ∧
        getKey (loadConfig n (some (saveConfig n c))) "working_dir" = none) ∧
    (getKey (loadConfig n (some (saveConfig n c))) "name" =
        some (.str (mandStr c "name" n)) ∧
     getKey (loadConfig n (some (saveConfig n c))) "type" =
        some (.str (mandStr c "type" "unknown")) ∧
     getKey (loadConfig n (some (saveConfig n c))) "path" =
        some (.str (mandStr c "path" ""))) ∧
    (getTruthy c "description" = none → getTruthy c "environment" = none →
     getTruthy c "mounts" = none → getTruthy c "network" = none →
     getTruthy c "arguments" = none → getTruthy c "working_dir" = none →
     saveLines n c = headerLines n ++
       [mandLine c "name" n, mandLine c "type" "unknown", mandLine c "path" ""]) ∧
    loadConfig "a" (some (saveConfig "a" (defaultConfig "a"))) ≠ defaultConfig "a" := by
  rw [loadConfig_saveConfig n c hwf hn]
  obtain ⟨gname, gtype, gpath, gdesc, genv, gmnt, gnet, gargs, gwd⟩ := roundTripModel_getKey n c
  refine ⟨?_, ?_, ?_, ?_, ?_, ?_, ⟨gname, gtype, gpath⟩, ?_, by decide⟩
  · intro hg
    exact ⟨by unfold optScalarLines; rw [hg], by rw [gdesc, hg]⟩
  · intro hg
    exact ⟨by unfold optStructLines; rw [hg], by rw [genv, hg]⟩
  · intro hg
    exact ⟨by unfold optStructLines; rw [hg], by rw [gmnt, hg]⟩
  · intro hg
    exact ⟨by unfold optScalarLines; rw [hg], by rw [gnet, hg]⟩
  · intro hg
    exact ⟨by unfold optScalarLines; rw [hg], by rw [gargs, hg]⟩
  · intro hg
    exact ⟨by unfold optScalarLines; rw [hg], by rw [gwd, hg]⟩
  · intro h1 h2 h3 h4 h5 h6
    simp [saveLines, optScalarLines, optStructLines, h1, h2, h3, h4, h5, h6]

/-- A concrete record with empty optional fields for the C10 witness. -/
def cNoOpt : Config :=
  [("name", .str "app"), ("type", .str "exe"), ("path", .str "/a"),
   ("description", .str ""), ("environment", .dict []), ("mounts", .list [])]

/-- Witness for C10 at a concrete record: the empty optional fields
produce no saved lines and are absent after reload. -/
theorem C10_optional_fields_witness :
    optScalarLines cNoOpt "description" = [] ∧
    getKey (loadConfig "app" (some (saveConfig "app" cNoOpt))) "description" = none ∧
    getKey (loadConfig "app" (some (saveConfig "app" cNoOpt))) "environment" = none ∧
    getKey (loadConfig "app" (some (saveConfig "app" cNoOpt))) "name" =
      some (CVal.str "app") := by
  have h := C10_optional_fields "app" cNoOpt (by decide) (by decide)
  refine ⟨(h.1 (by decide)).1, (h.1 (by decide)).2, (h.2.1 (by decide)).2, ?_⟩
  have hn := h.2.2.2.2.2.2.1
  exact hn.1

/-! ## Dispatcher (`cmd_open`, apollo.py lines 623-691)

The filesystem and the external runtimes are abstracted into a `World`
supplying the results of the impure calls `cmd_open` makes: path
existence, the 4-byte header read by `detect_type`, config file
contents, dependency presence (`ensure_deps`), adapter outcomes
(`run_exe` / `run_apk` / `run_macos`), and `os.path.abspath`. -/

/-- The final path component of a path (the fragment of
`pathlib.Path(p).name` for paths without trailing slashes). -/
def lastComponent (l : List Char) : List Char :=
  l.foldl (fun acc c => if c = '/' then [] else acc ++ [c]) []

/-- `pathlib.Path(p).name`. -/
def baseName (p : String) : String := String.mk (lastComponent p.data)

/-- Index of the last dot in a file name. -/
def lastDotIdx (l : List Char) : Option Nat :=
  ((l.enum.filter (fun pr => pr.2 = '.')).getLast?).map (fun pr => pr.1)

/-- `pathlib.Path(p).stem`: the final component minus its suffix; a
leading dot or a trailing dot does not start a suffix. -/
def pathStem (p : String) : String :=
  let nm := (baseName p).data
  match lastDotIdx nm with
  | some i => if 0 < i ∧ i < nm.length - 1 then String.mk (nm.take i) else String.mk nm
  | none => String.mk nm

/-- The world `cmd_open` runs against. `adapterOK kind path` is the
boolean result of the adapter call (`run_exe` / `run_apk` / `run_macos`),
which the oracle fixes per kind and payload path. -/
structure World where
  pathExists : String → Bool
  header : String → Option (List Nat)
  confFile : String → Option String
  depsOK : Bool
  adapterOK : String → String → Bool
  abspath : String → String

/-- Everything observable about one `cmd_open` invocation: the resolved
(name, kind, payload path, record), the adapter/spawn actually invoked
(kind, path), the record passed to `save_config`, the launch success
flag, and whether an error message was printed. -/
structure OpenResult where
  resolved : Option (String × Option String × String × Config)
  launched : Option (String × String)
  saved : Option (String × Config)
  success : Bool
  errored : Bool
deriving DecidableEq

/-- The result of every early-return error path of `cmd_open`. -/
def openAbort : OpenResult := ⟨none, none, none, false, true⟩

/-- The kind-dispatch block of `cmd_open` (lines 670-691): one branch per
kind string, success `True` unconditionally for linux/script (chmod and
detached `Popen`), adapter result otherwise, error and no persistence on
failure, `save_config` on success. -/
def dispatchKind (w : World) (appName : String) (ftype : Option String)
    (tPath : String) (cfg : Config) : OpenResult :=
  match ftype with
  | some "exe" =>
    let ok := w.adapterOK "exe" tPath
    ⟨some (appName, ftype, tPath, cfg), some ("exe", tPath),
      if ok then some (appName, cfg) else none, ok, !ok⟩
  | some "apk" =>
    let ok := w.adapterOK "apk" tPath
    ⟨some (appName, ftype, tPath, cfg), some ("apk", tPath),
      if ok then some (appName, cfg) else none, ok, !ok⟩
  | some "macos" =>
    let ok := w.adapterOK "macos" tPath
    ⟨some (appName, ftype, tPath, cfg), some ("macos", tPath),
      if ok then some (appName, cfg) else none, ok, !ok⟩
  | some "linux" =>
    ⟨some (appName, ftype, tPath, cfg), some ("linux", tPath),
      some (appName, cfg), true, false⟩
  | some "script" =>
    ⟨some (appName, ftype, tPath, cfg), some ("script", tPath),
      some (appName, cfg), true, false⟩
  | _ => ⟨some (appName, ftype, tPath, cfg), none, none, false, true⟩

/-- `config.get("path", "")` when the stored value is a string (the only
shape `load_config` produces for this key). -/
def getScalarD (c : Config) (k : String) (dflt : String) : String :=
  match getKey c k with
  | some (.str s) => s
  | some _ => dflt
  | none => dflt

/-- `config.get("type", detect_type(target_path))` in the
registered-name branch: the stored kind when present, re-detection only
when the key is absent. `load_config` stores only strings under "type";
the non-string case is unreachable and modelled as the empty kind. -/
def nameFtype (w : World) (cfg : Config) (tPath : String) : Option String :=
  match getKey cfg "type" with
  | some (.str s) => some s
  | some _ => some ""
  | none => detectType tPath (w.header tPath)

/-- `cmd_open(target)`: dependency check; if the target is not an
existing path, treat it as a registered name (load its record, validate
the stored path, use the stored kind); otherwise treat it as a fresh
path registration (absolute path, stem as name, fresh detection,
record merged over any existing config of that stem); then dispatch. -/
def cmdOpen (w : World) (target : String) : OpenResult :=
  if w.depsOK = false then openAbort
  else if w.pathExists target = false then
    match w.confFile target with
    | none => openAbort
    | some content =>
      let cfg := loadConfig target (some content)
      let tPath := getScalarD cfg "path" ""
      if tPath = "" ∨ w.pathExists tPath = false then openAbort
      else
        let ftype := nameFtype w cfg tPath
        let cfg2 := setKey cfg "type"
          (match ftype with | some s => CVal.str s | none => CVal.pynone)
        dispatchKind w target ftype tPath cfg2
  else
    let tPath := w.abspath target
    match detectType tPath (w.header tPath) with
    | none => openAbort
    | some ft =>
      let appName := pathStem tPath
      let cfg := loadConfig appName (w.confFile appName)
      let cfg2 := setKey (setKey (setKey cfg "name" (.str appName))
        "type" (.str ft)) "path" (.str tPath)
      dispatchKind w appName (some ft) tPath cfg2

theorem dispatchKind_resolved (w : World) (a : String) (ft : Option String)
    (p : String) (cfg : Config) :
    (dispatchKind w a ft p cfg).resolved = some (a, ft, p, cfg) := by
  unfold dispatchKind
  split <;> rfl

theorem dispatchKind_unknown (w : World) (a : String) (ft : Option String)
    (p : String) (cfg : Config) (h : ft = none ∨ ft = some "unknown") :
    dispatchKind w a ft p cfg = ⟨some (a, ft, p, cfg), none, none, false, true⟩ := by
  rcases h with h | h <;> subst h <;> rfl

theorem cmdOpen_deps_abort (w : World) (t : String) (h : w.depsOK = false) :
    cmdOpen w t = openAbort := by
  unfold cmdOpen
  rw [if_pos h]

theorem cmdOpen_name_not_found (w : World) (t : String)
    (hdeps : w.depsOK = true) (hp : w.pathExists t = false)
    (hc : w.confFile t = none) : cmdOpen w t = openAbort := by
  unfold cmdOpen
  rw [if_neg (by simp [hdeps]), if_pos hp]
  simp only [hc]

theorem cmdOpen_name_missing_source (w : World) (t content : String)
    (hdeps : w.depsOK = true) (hp : w.pathExists t = false)
    (hc : w.confFile t = some content)
    (hbad : getScalarD (loadConfig t (some content)) "path" "" = "" ∨
      w.pathExists (getScalarD (loadConfig t (some content)) "path" "") = false) :
    cmdOpen w t = openAbort := by
  unfold cmdOpen
  rw [if_neg (by simp [hdeps]), if_pos hp]
  simp only [hc]
  rw [if_pos hbad]

theorem cmdOpen_name_dispatch (w : World) (t content : String)
    (hdeps : w.depsOK = true) (hp : w.pathExists t = false)
    (hc : w.confFile t = some content)
    (hgood : ¬ (getScalarD (loadConfig t (some content)) "path" "" = "" ∨
      w.pathExists (getScalarD (loadConfig t (some content)) "path" "") = false)) :
    cmdOpen w t =
      dispatchKind w t
        (nameFtype w (loadConfig t (some content))
          (getScalarD (loadConfig t (some content)) "path" ""))
        (getScalarD (loadConfig t (some content)) "path" "")
        (setKey (loadConfig t (some content)) "type"
          (match nameFtype w (loadConfig t (some content))
              (getScalarD (loadConfig t (some content)) "path" "") with
           | some s => CVal.str s
           | none => CVal.pynone)) := by
  unfold cmdOpen
  rw [if_neg (by simp [hdeps]), if_pos hp]
  simp only [hc]
  rw [if_neg hgood]

theorem cmdOpen_path_unsupported (w : World) (t : String)
    (hdeps : w.depsOK = true) (hp : w.pathExists t = true)
    (hd : detectType (w.abspath t) (w.header (w.abspath t)) = none) :
    cmdOpen w t = openAbort := by
  unfold cmdOpen
  rw [if_neg (by simp [hdeps]), if_neg (by simp [hp])]
  simp only [hd]

theorem cmdOpen_path_dispatch (w : World) (t : String) (k : String)
    (hdeps : w.depsOK = true) (hp : w.pathExists t = true)
    (hd : detectType (w.abspath t) (w.header (w.abspath t)) = some k) :
    cmdOpen w t =
      dispatchKind w (pathStem (w.abspath t)) (some k) (w.abspath t)
        (setKey (setKey (setKey
          (loadConfig (pathStem (w.abspath t)) (w.confFile (pathStem (w.abspath t))))
          "name" (.str (pathStem (w.abspath t))))
          "type" (.str k)) "path" (.str (w.abspath t))) := by
  unfold cmdOpen
  rw [if_neg (by simp [hdeps]), if_neg (by simp [hp])]
  simp only [hd]

theorem cmdOpen_cases (w : World) (t : String) :
    cmdOpen w t = openAbort ∨
      ∃ a ft p cfg, cmdOpen w t = dispatchKind w a ft p cfg := by
  by_cases hdeps : w.depsOK = false
  · left; exact cmdOpen_deps_abort w t hdeps
  · have hdeps2 : w.depsOK = true := by
      cases h : w.depsOK
      · exact absurd h hdeps
      · rfl
    by_cases hp : w.pathExists t = false
    · cases hc : w.confFile t with
      | none => left; exact cmdOpen_name_not_found w t hdeps2 hp hc
      | some content =>
        by_cases hbad : getScalarD (loadConfig t (some content)) "path" "" = "" ∨
            w.pathExists (getScalarD (loadConfig t (some content)) "path" "") = false
        · left; exact cmdOpen_name_missing_source w t content hdeps2 hp hc hbad
        · right
          exact ⟨_, _, _, _, cmdOpen_name_dispatch w t content hdeps2 hp hc hbad⟩
    · have hp2 : w.pathExists t = true := by
        cases h : w.pathExists t
        · exact absurd h hp
        · rfl
      cases hd : detectType (w.abspath t) (w.header (w.abspath t)) with
      | none => left; exact cmdOpen_path_unsupported w t hdeps2 hp2 hd
      | some k => right; exact ⟨_, _, _, _, cmdOpen_path_dispatch w t k hdeps2 hp2 hd⟩

/-- C4: resolution of `open`. An existing filesystem path is a fresh
registration: the record dispatched is keyed by the file stem of the
absolute path, with freshly detected kind and the absolute path stored;
an unrecognized kind aborts. Otherwise the target is a registered name:
no config file aborts; a stored source path that is empty or no longer
exists aborts; else the stored kind is used, falling back to
re-detection only when the stored kind key is absent. -/
theorem C4_open_resolution (w : World) (target : String)
    (hdeps : w.depsOK = true) :
    (w.pathExists target = true →
      (detectType (w.abspath target) (w.header (w.abspath target)) = none →
        cmdOpen w target = openAbort) ∧
      (∀ k, detectType (w.abspath target) (w.header (w.abspath target)) = some k →
        ∃ cfg, (cmdOpen w target).resolved =
            some (pathStem (w.abspath target), some k, w.abspath target, cfg) ∧
          getKey cfg "name" = some (.str (pathStem (w.abspath target))) ∧
          getKey cfg "type" = some (.str k) ∧
          getKey cfg "path" = some (.str (w.abspath target)))) ∧
    (w.pathExists target = false →
      (w.confFile target = none → cmdOpen w target = openAbort) ∧
      (∀ content, w.confFile target = some content →
        ((getScalarD (loadConfig target (some content)) "path" "" = "" ∨
            w.pathExists (getScalarD (loadConfig target (some content)) "path" "") = false) →
          cmdOpen w target = openAbort) ∧
        (¬ (getScalarD (loadConfig target (some content)) "path" "" = "" ∨
            w.pathExists (getScalarD (loadConfig target (some content)) "path" "") = false) →
          (∀ s, getKey (loadConfig target (some content)) "type" = some (.str s) →
            (cmdOpen w target).resolved = some (target, some s,
              getScalarD (loadConfig target (some content)) "path" "",
              setKey (loadConfig target (some content)) "type" (.str s))) ∧
          (getKey (loadConfig target (some content)) "type" = none →
            (cmdOpen w target).resolved = some (target,
              detectType (getScalarD (loadConfig target (some content)) "path" "")
                (w.header (getScalarD (loadConfig target (some content)) "path" "")),
              getScalarD (loadConfig target (some content)) "path" "",
              setKey (loadConfig target (some content)) "type"
                (match detectType (getScalarD (loadConfig target (some content)) "path" "")
                    (w.header (getScalarD (loadConfig target (some content)) "path" "")) with
                 | some s => CVal.str s
                 | none => CVal.pynone)))))) := by
  constructor
  · intro hp
    constructor
    · intro hd
      exact cmdOpen_path_unsupported w target hdeps hp hd
    · intro k hd
      rw [cmdOpen_path_dispatch w target k hdeps hp hd]
      refine ⟨_, dispatchKind_resolved _ _ _ _ _, ?_, ?_, ?_⟩
      · rw [getKey_setKey_ne _ _ _ _ (by decide), getKey_setKey_ne _ _ _ _ (by decide)]
        exact getKey_setKey_same _ _ _
      · rw [getKey_setKey_ne _ _ _ _ (by decide)]
        exact getKey_setKey_same _ _ _
      · exact getKey_setKey_same _ _ _
  · intro hp
    constructor
    · intro hc
      exact cmdOpen_name_not_found w target hdeps hp hc
    · intro content hc
      constructor
      · intro hbad
        exact cmdOpen_name_missing_source w target content hdeps hp hc hbad
      · intro hgood
        constructor
        · intro s hs
          rw [cmdOpen_name_dispatch w target content hdeps hp hc hgood]
          rw [dispatchKind_resolved]
          rw [show nameFtype w (loadConfig target (some content))
              (getScalarD (loadConfig target (some content)) "path" "") = some s from by
            unfold nameFtype
            rw [hs]]
        · intro hnone
          rw [cmdOpen_name_dispatch w target content hdeps hp hc hgood]
          rw [dispatchKind_resolved]
          rw [show nameFtype w (loadConfig target (some content))
              (getScalarD (loadConfig target (some content)) "path" "") =
              detectType (getScalarD (loadConfig target (some content)) "path" "")
                (w.header (getScalarD (loadConfig target (some content)) "path" "")) from by
            unfold nameFtype
            rw [hnone]]

/-- Config file content of a registered application for the witnesses. -/
def confQ : String := "type = \"exe\"\npath = \"/bin/game.exe\""

/-- A world with one registered application and one real payload file. -/
def wName : World :=
  ⟨fun p => p = "/bin/game.exe", fun _ => none,
   fun s => if s = "Quake" then some confQ else none,
   true, fun _ _ => true, fun s => s⟩

/-- Witness for C4: opening the registered name `Quake` resolves to its
stored path and stored kind `exe`. -/
theorem C4_open_resolution_witness :
    (cmdOpen wName "Quake").resolved = some ("Quake", some "exe",
      getScalarD (loadConfig "Quake" (some confQ)) "path" "",
      setKey (loadConfig "Quake" (some confQ)) "type" (.str "exe")) ∧
    getScalarD (loadConfig "Quake" (some confQ)) "path" "" = "/bin/game.exe" := by
  refine ⟨?_, by decide⟩
  exact ((((C4_open_resolution wName "Quake" rfl).2 (by decide)).2 confQ
    (by decide)).2 (by decide)).1 "exe" (by decide)

/-- The persistence discipline of one `cmd_open` run. -/
def persistInv (r : OpenResult) : Prop :=
  r.saved.isSome = r.success ∧
    (r.success = false → r.saved = none ∧ r.errored = true)

theorem persistInv_cond (res : Option (String × Option String × String × Config))
    (l : Option (String × String)) (x : String × Config) (ok : Bool) :
    persistInv ⟨res, l, if ok then some x else none, ok, !ok⟩ := by
  cases ok <;> simp [persistInv]

theorem persistInv_ok (res : Option (String × Option String × String × Config))
    (l : Option (String × String)) (x : String × Config) :
    persistInv ⟨res, l, some x, true, false⟩ := by
  simp [persistInv]

theorem persistInv_fail (res : Option (String × Option String × String × Config))
    (l : Option (String × String)) :
    persistInv ⟨res, l, none, false, true⟩ := by
  simp [persistInv]

theorem dispatchKind_persist (w : World) (a : String) (ft : Option String)
    (p : String) (cfg : Config) : persistInv (dispatchKind w a ft p cfg) := by
  unfold dispatchKind
  split
  · exact persistInv_cond _ _ _ _
  · exact persistInv_cond _ _ _ _
  · exact persistInv_cond _ _ _ _
  · exact persistInv_ok _ _ _
  · exact persistInv_ok _ _ _
  · exact persistInv_fail _ _

theorem cmdOpen_persist (w : World) (t : String) : persistInv (cmdOpen w t) := by
  rcases cmdOpen_cases w t with hc | ⟨a, ft, p, cfg, hc⟩
  · rw [hc]
    exact persistInv_fail none none
  · rw [hc]
    exact dispatchKind_persist w a ft p cfg

/-- C5: for every invocation of open, the record is handed to the config
store exactly when the launch succeeded; on failure (including a failed
Windows-subsystem provisioning, which surfaces as `run_exe` returning
false) nothing is persisted and an error is reported. -/
theorem C5_persist_only_after_success (w : World) (target : String) :
    ((cmdOpen w target).saved.isSome = (cmdOpen w target).success) ∧
    ((cmdOpen w target).success = false →
      (cmdOpen w target).saved = none ∧ (cmdOpen w target).errored = true) :=
  cmdOpen_persist w target

/-- A world whose Windows adapter always fails (e.g. provisioning of the
container fails). -/
def wFail : World :=
  ⟨fun p => p = "/a.exe", fun _ => none, fun _ => none,
   true, fun _ _ => false, fun s => s⟩

/-- Witness for C5: with a failing adapter, an exe launch persists
nothing and reports an error. -/
theorem C5_persist_only_after_success_witness :
    (cmdOpen wFail "/a.exe").success = false ∧
    (cmdOpen wFail "/a.exe").saved = none ∧
    (cmdOpen wFail "/a.exe").errored = true := by
  have h := (C5_persist_only_after_success wFail "/a.exe").2 (by decide)
  exact ⟨by decide, h⟩

/-- C6: a record whose kind is `unknown` blocks open: whenever the
resolved kind is `unknown` (or Python `None`), no adapter is invoked, no
launch occurs, nothing is persisted and the invocation fails with an
error; likewise a path target whose detection returns NotRecognized
aborts before any dispatch. -/
theorem C6_unknown_blocks (w : World) (target : String) :
    (∀ nm kd p cfg, (cmdOpen w target).resolved = some (nm, kd, p, cfg) →
      (kd = none ∨ kd = some "unknown") →
      (cmdOpen w target).launched = none ∧ (cmdOpen w target).success = false ∧
        (cmdOpen w target).errored = true ∧ (cmdOpen w target).saved = none) ∧
    (w.depsOK = true → w.pathExists target = true →
      detectType (w.abspath target) (w.header (w.abspath target)) = none →
      (cmdOpen w target).launched = none ∧ (cmdOpen w target).success = false ∧
        (cmdOpen w target).errored = true) := by
  constructor
  · intro nm kd p cfg hres hkd
    rcases cmdOpen_cases w target with hc | ⟨a, ft, p2, cfg2, hc⟩
    · rw [hc] at hres
      simp [openAbort] at hres
    · rw [hc] at hres ⊢
      rw [dispatchKind_resolved] at hres
      have h2 := Option.some.inj hres
      have e2 : ft = kd := congrArg (fun q => q.2.1) h2
      rw [dispatchKind_unknown w a ft p2 cfg2 (by rw [e2]; exact hkd)]
      exact ⟨rfl, rfl, rfl, rfl⟩
  · intro hdeps2 hp hd
    rw [cmdOpen_path_unsupported w target hdeps2 hp hd]
    exact ⟨rfl, rfl, rfl⟩

/-- Config content with an `unknown` stored kind. -/
def confUnk : String := "type = \"unknown\"\npath = \"/x\""

/-- A world with one registered application of kind `unknown` whose
payload still exists. -/
def wUnk : World :=
  ⟨fun p => p = "/x", fun _ => none,
   fun s => if s = "app" then some confUnk else none,
   true, fun _ _ => true, fun s => s⟩

/-- Witness for C6: opening the registered `unknown`-kind application
invokes no adapter and fails. -/
theorem C6_unknown_blocks_witness :
    (cmdOpen wUnk "app").launched = none ∧
    (cmdOpen wUnk "app").success = false := by
  have hres : (cmdOpen wUnk "app").resolved = some ("app", some "unknown", "/x",
      setKey (loadConfig "app" (some confUnk)) "type" (.str "unknown")) := by decide
  have h := (C6_unknown_blocks wUnk "app").1 "app" (some "unknown") "/x" _ hres (Or.inr rfl)
  exact ⟨h.1, h.2.1⟩

/- The Windows adapter `run_exe`: container provisioning, payload copy,
wine spawn, log redirection and run registry. Effects are recorded in an
explicit result; the two `int(time.time())` calls of the source are two
oracle values `time1` (exe name) and `time2` (log name). -/

structure ExeWorld where
  startOK : Bool
  pushOK : Bool
  time1 : Nat
  time2 : Nat
  pid : Nat
  registry : List (String × Nat)
deriving DecidableEq

structure ExeResult where
  pushed : Option (String × String)
  spawned : Option (List String)
  logTo : Option String
  registry : List (String × Nat)
  result : Bool
deriving DecidableEq

/-- `f"\x7bapp_name\x7d_\x7bint(time.time())\x7d.exe"`. -/
def exeRemoteName (appName : String) (t : Nat) : String :=
  appName ++ "_" ++ toString t ++ ".exe"

/-- The `--env KEY=VALUE` flag list built from `config["environment"]`
when `config.get("environment")` is truthy. A truthy non-dict value
would raise in Python outside the handled exception; callers restrict to
`envTyped` records, for which this case does not arise. -/
def envFlags (cfg : Config) : List String :=
  match getTruthy cfg "environment" with
  | some (CVal.dict l) => l.foldr (fun kv acc => "--env" :: (kv.1 ++ "=" ++ kv.2) :: acc) []
  | _ => []

/-- `run_exe(path, app_name, config)`: subsystem start, `lxc file push`
of the payload to `apollo/root/<exeName>`, spawn of
`lxc exec apollo -- [env flags] wine <containerPath>` with stdout and
stderr both bound to a timestamped log, and append of `name:pid` to the
run registry (opened in mode "a"). -/
def runExe (w : ExeWorld) (path appName : String) (cfg : Config) : ExeResult :=
  if w.startOK = false then ⟨none, none, none, w.registry, false⟩
  else if w.pushOK = false then
    ⟨some (path, "apollo" ++ ("/root/" ++ exeRemoteName appName w.time1)),
     none, none, w.registry, false⟩
  else
    ⟨some (path, "apollo" ++ ("/root/" ++ exeRemoteName appName w.time1)),
     some (["lxc", "exec", "apollo", "--"] ++ envFlags cfg ++
       ["wine", "/root/" ++ exeRemoteName appName w.time1]),
     some (appName ++ "_" ++ toString w.time2 ++ ".log"),
     w.registry ++ [(appName, w.pid)], true⟩

/-- C7: on a Windows (exe) launch with subsystem and copy succeeding,
the payload is pushed into the container under the timestamped name
`\x7bappName\x7d_\x7bunixTimestamp\x7d.exe`, the spawned command runs
wine on that container path with the record's environment flags, the
child's combined output goes to a per-launch timestamped log file, and
the `(name, pid)` pair is appended to the run registry, which keeps all
previous entries (append, never overwrite). -/
theorem C7_exe_launch (w : ExeWorld) (path appName : String) (cfg : Config)
    (hstart : w.startOK = true) (hpush : w.pushOK = true) :
    (runExe w path appName cfg).pushed =
      some (path, "apollo" ++ ("/root/" ++ exeRemoteName appName w.time1)) ∧
    exeRemoteName appName w.time1 = appName ++ "_" ++ toString w.time1 ++ ".exe" ∧
    (runExe w path appName cfg).spawned =
      some (["lxc", "exec", "apollo", "--"] ++ envFlags cfg ++
        ["wine", "/root/" ++ exeRemoteName appName w.time1]) ∧
    (runExe w path appName cfg).logTo =
      some (appName ++ "_" ++ toString w.time2 ++ ".log") ∧
    (runExe w path appName cfg).registry = w.registry ++ [(appName, w.pid)] ∧
    (runExe w path appName cfg).result = true := by
  unfold runExe
  rw [if_neg (by simp [hstart]), if_neg (by simp [hpush])]
  exact ⟨rfl, rfl, rfl, rfl, rfl, rfl⟩

/-- Record with one environment variable for the C7 witness. -/
def cEnvW : Config := [("environment", CVal.dict [("WINEDEBUG", "-all")])]

def wExe : ExeWorld := ⟨true, true, 100, 101, 4242, [("old", 7)]⟩

/-- Witness for C7 at a concrete world: the old registry entry survives
and the new pair is appended; the wine command carries the env flag. -/
theorem C7_exe_launch_witness :
    (runExe wExe "/g.exe" "game" cEnvW).registry = [("old", 7), ("game", 4242)] ∧
    (runExe wExe "/g.exe" "game" cEnvW).spawned =
      some ["lxc", "exec", "apollo", "--", "--env", "WINEDEBUG=-all",
        "wine", "/root/game_100.exe"] ∧
    (runExe wExe "/g.exe" "game" cEnvW).logTo = some "game_101.log" ∧
    (runExe wExe "/g.exe" "game" cEnvW).result = true := by
  have h := C7_exe_launch wExe "/g.exe" "game" cEnvW rfl rfl
  exact ⟨h.2.2.2.2.1.trans (by decide), h.2.2.1.trans (by decide),
    h.2.2.2.1.trans (by decide), h.2.2.2.2.2⟩

/- The macOS adapter `run_macos`. The `.app`-bundle branch scans
`Contents/MacOS/*` for the first entry with the execute bit; when none
matches, control falls off the `if` chain (the `elif`/`else` arms are
not retried) and Python returns `None`, modelled as `none`. -/

structure MacWorld where
  darlingOK : Bool
  isDir : String → Bool
  bundleEntries : String → List String
  isExec : String → Bool

structure MacResult where
  spawned : List (List String)
  result : Option Bool
deriving DecidableEq

/-- First entry of `rglob("Contents/MacOS/*")` with `os.access(…, X_OK)`. -/
def findExec (w : MacWorld) : List String → Option String
  | [] => none
  | e :: es => if w.isExec e then some e else findExec w es

/-- `run_macos(path, app_name, config)`: darling check; `.app` directory
→ spawn the first executable bundle entry via `darling shell` (no match
returns `None`); `.dmg` → `darling shell hdiutil attach`; anything else
→ `darling shell path`. -/
def runMacos (w : MacWorld) (path _appName : String) : MacResult :=
  if w.darlingOK = false then ⟨[], some false⟩
  else if strEndsWith (toLowerStr path) ".app" && w.isDir path then
    match findExec w (w.bundleEntries path) with
    | some e => ⟨[["darling", "shell", e]], some true⟩
    | none => ⟨[], none⟩
  else if strEndsWith (toLowerStr path) ".dmg" then
    ⟨[["darling", "shell", "hdiutil", "attach", path]], some true⟩
  else
    ⟨[["darling", "shell", path]], some true⟩

theorem findExec_none (w : MacWorld) (l : List String)
    (h : ∀ e ∈ l, w.isExec e = false) : findExec w l = none := by
  induction l with
  | nil => rfl
  | cons e es ih =>
    have he := h e (List.mem_cons_self e es)
    have hes := ih (fun x hx => h x (List.mem_cons_of_mem e hx))
    simp [findExec, he, hes]

/-- C9: for a `.app` bundle directory with no executable under
`Contents/MacOS/`, the macOS adapter spawns nothing — in particular it
does not fall back to launching the raw path — and returns Python
`None` (a non-success, falsy value, so the launch is reported as
failed). -/
theorem C9_app_no_executable (w : MacWorld) (path appName : String)
    (hdar : w.darlingOK = true)
    (happ : strEndsWith (toLowerStr path) ".app" = true)
    (hdir : w.isDir path = true)
    (hnoexec : ∀ e ∈ w.bundleEntries path, w.isExec e = false) :
    (runMacos w path appName).spawned = [] ∧
    (runMacos w path appName).result = none ∧
    (runMacos w path appName).result ≠ some true := by
  have hfind := findExec_none w (w.bundleEntries path) hnoexec
  simp [runMacos, hdar, happ, hdir, hfind]

/-- A world with one `.app` bundle whose only bundle entry is not
executable. -/
def wMac : MacWorld :=
  ⟨true, fun p => p = "/Apps/Foo.app",
   fun p => if p = "/Apps/Foo.app" then ["/Apps/Foo.app/Contents/MacOS/Foo"] else [],
   fun _ => false⟩

/-- Witness for C9 at the concrete bundle world. -/
theorem C9_app_no_executable_witness :
    (runMacos wMac "/Apps/Foo.app" "Foo").spawned = [] ∧
    (runMacos wMac "/Apps/Foo.app" "Foo").result = none := by
  have h := C9_app_no_executable wMac "/Apps/Foo.app" "Foo" rfl (by decide) (by decide)
    (by decide)
  exact ⟨h.1, h.2.1⟩

/- `cmd_add(path, name)`: register an application by copying its payload
under managed storage and saving a fresh record. -/

structure AddWorld where
  home : String
  pathExists : String → Bool
  header : String → Option (List Nat)
  isDir : String → Bool
  copyOK : String → String → Bool
  saveOK : Bool
  timeStr : String

structure AddResult where
  copied : Option (String × String)
  saved : Option (String × Config)
deriving DecidableEq

/-- `name or pathlib.Path(path).stem` (an empty name string is falsy). -/
def addName (path : String) : Option String → String
  | some n => if n = "" then pathStem path else n
  | none => pathStem path

/-- `APPS_DIR / app_name / pathlib.Path(path).name` as a string:
`HOME/.apollo/apps/<app_name>/<basename>`. -/
def addDest (w : AddWorld) (path appName : String) : String :=
  w.home ++ "/.apollo/apps/" ++ appName ++ "/" ++ baseName path

/-- The config dict literal built by `cmd_add`. -/
def addConfig (w : AddWorld) (appName t dest : String) : Config :=
  [("name", .str appName), ("type", .str t), ("path", .str dest),
   ("description", .str ("Добавлено " ++ w.timeStr)),
   ("environment", .dict []), ("mounts", .list []),
   ("network", .str "nat"), ("arguments", .str ""), ("working_dir", .str "")]

/-- `cmd_add`: abort if the source path does not exist; choose the app
name; abort on unsupported kind; copy the payload to the managed
destination (`copytree` for directories, `copy2` for files —
`shutil.copy2` onto the identical path raises `SameFileError`, caught
and turned into an abort); then build and save the record. -/
def cmdAdd (w : AddWorld) (path : String) (name : Option String) : AddResult :=
  if w.pathExists path = false then ⟨none, none⟩
  else
    match detectType path (w.header path) with
    | none => ⟨none, none⟩
    | some t =>
      if (if w.isDir path then w.copyOK path (addDest w path (addName path name))
          else if path = addDest w path (addName path name) then false
          else w.copyOK path (addDest w path (addName path name))) = false then
        ⟨none, none⟩
      else if w.saveOK = false then
        ⟨some (path, addDest w path (addName path name)), none⟩
      else
        ⟨some (path, addDest w path (addName path name)),
         some (addName path name,
           addConfig w (addName path name) t (addDest w path (addName path name)))⟩

theorem addName_some (path nm : String) (hnm : nm ≠ "") :
    addName path (some nm) = nm := by
  simp [addName, hnm]

theorem cmdAdd_not_found (w : AddWorld) (path : String) (name : Option String)
    (hex : w.pathExists path = false) : cmdAdd w path name = ⟨none, none⟩ := by
  unfold cmdAdd
  rw [if_pos hex]

theorem cmdAdd_same_abort (w : AddWorld) (path nm t : String) (hnm : nm ≠ "")
    (hex : w.pathExists path = true)
    (hdet : detectType path (w.header path) = some t)
    (hfile : w.isDir path = false)
    (hpd : path = addDest w path nm) :
    cmdAdd w path (some nm) = ⟨none, none⟩ := by
  unfold cmdAdd
  rw [if_neg (by simp [hex])]
  simp only [hdet]
  rw [addName_some path nm hnm]
  rw [if_neg (show ¬(w.isDir path = true) by simp [hfile]), if_pos hpd, if_pos rfl]

theorem cmdAdd_copy_fail (w : AddWorld) (path nm t : String) (hnm : nm ≠ "")
    (hex : w.pathExists path = true)
    (hdet : detectType path (w.header path) = some t)
    (hfile : w.isDir path = false)
    (hpd : ¬ path = addDest w path nm)
    (hcopy : w.copyOK path (addDest w path nm) = false) :
    cmdAdd w path (some nm) = ⟨none, none⟩ := by
  unfold cmdAdd
  rw [if_neg (by simp [hex])]
  simp only [hdet]
  rw [addName_some path nm hnm]
  rw [if_neg (show ¬(w.isDir path = true) by simp [hfile]), if_neg hpd, if_pos hcopy]

theorem cmdAdd_save_fail (w : AddWorld) (path nm t : String) (hnm : nm ≠ "")
    (hex : w.pathExists path = true)
    (hdet : detectType path (w.header path) = some t)
    (hfile : w.isDir path = false)
    (hpd : ¬ path = addDest w path nm)
    (hcopy : w.copyOK path (addDest w path nm) = true)
    (hsave : w.saveOK = false) :
    cmdAdd w path (some nm) = ⟨some (path, addDest w path nm), none⟩ := by
  unfold cmdAdd
  rw [if_neg (by simp [hex])]
  simp only [hdet]
  rw [addName_some path nm hnm]
  rw [if_neg (show ¬(w.isDir path = true) by simp [hfile]), if_neg hpd,
    if_neg (by simp [hcopy]), if_pos hsave]

theorem cmdAdd_ok (w : AddWorld) (path nm t : String) (hnm : nm ≠ "")
    (hex : w.pathExists path = true)
    (hdet : detectType path (w.header path) = some t)
    (hfile : w.isDir path = false)
    (hpd : ¬ path = addDest w path nm)
    (hcopy : w.copyOK path (addDest w path nm) = true)
    (hsave : w.saveOK = true) :
    cmdAdd w path (some nm) =
      ⟨some (path, addDest w path nm),
       some (nm, addConfig w nm t (addDest w path nm))⟩ := by
  unfold cmdAdd
  rw [if_neg (by simp [hex])]
  simp only [hdet]
  rw [addName_some path nm hnm]
  rw [if_neg (show ¬(w.isDir path = true) by simp [hfile]), if_neg hpd,
    if_neg (by simp [hcopy]), if_neg (by simp [hsave])]

/-- C8: whenever `add(path, name)` with a nonempty explicit name on an
exe file payload reaches a saved record, the registration is keyed by
the given name, its kind is `exe`, its stored source path is the
managed-storage destination `HOME/.apollo/apps/<name>/<basename>` and
differs from the original path (a copy onto the identical path raises
`SameFileError` and aborts before saving), and its network mode is
`nat`. -/
theorem C8_add_exe_postconditions (w : AddWorld) (path nm : String)
    (hnm : nm ≠ "")
    (hdet : detectType path (w.header path) = some "exe")
    (hfile : w.isDir path = false) :
    ∀ n cfg, (cmdAdd w path (some nm)).saved = some (n, cfg) →
      n = nm ∧
      getKey cfg "name" = some (.str nm) ∧
      getKey cfg "type" = some (.str "exe") ∧
      getKey cfg "path" = some (.str (addDest w path nm)) ∧
      addDest w path nm ≠ path ∧
      getKey cfg "network" = some (.str "nat") := by
  intro n cfg h
  by_cases hex : w.pathExists path = false
  · rw [cmdAdd_not_found w path (some nm) hex] at h
    exact Option.noConfusion h
  · have hex2 : w.pathExists path = true := by
      cases hx : w.pathExists path
      · exact absurd hx hex
      · rfl
    by_cases hpd : path = addDest w path nm
    · rw [cmdAdd_same_abort w path nm "exe" hnm hex2 hdet hfile hpd] at h
      exact Option.noConfusion h
    · by_cases hcopy : w.copyOK path (addDest w path nm) = false
      · rw [cmdAdd_copy_fail w path nm "exe" hnm hex2 hdet hfile hpd hcopy] at h
        exact Option.noConfusion h
      · have hcopy2 : w.copyOK path (addDest w path nm) = true := by
          cases hx : w.copyOK path (addDest w path nm)
          · exact absurd hx hcopy
          · rfl
        by_cases hsave : w.saveOK = false
        · rw [cmdAdd_save_fail w path nm "exe" hnm hex2 hdet hfile hpd hcopy2 hsave] at h
          exact Option.noConfusion h
        · have hsave2 : w.saveOK = true := by
            cases hx : w.saveOK
            · exact absurd hx hsave
            · rfl
          rw [cmdAdd_ok w path nm "exe" hnm hex2 hdet hfile hpd hcopy2 hsave2] at h
          have h2 := Option.some.inj h
          have e1 : nm = n := congrArg Prod.fst h2
          have e2 : addConfig w nm "exe" (addDest w path nm) = cfg :=
            congrArg Prod.snd h2
          refine ⟨e1.symm, ?_, ?_, ?_, fun hq => hpd hq.symm, ?_⟩
          · rw [← e2]
            rfl
          · rw [← e2]
            rfl
          · rw [← e2]
            rfl
          · rw [← e2]
            rfl

/-- A world for the C8 witness: the payload `/dl/game.exe` exists, is a
file, copies and saves fine. -/
def wAdd : AddWorld :=
  ⟨"/home/u", fun p => p = "/dl/game.exe", fun _ => none, fun _ => false,
   fun _ _ => true, true, "2024-01-01 00:00:00"⟩

/-- Witness for C8: adding `/dl/game.exe` as `Quake` stores the copy
path under managed storage, distinct from the original, with kind exe
and network nat. -/
theorem C8_add_exe_postconditions_witness :
    addDest wAdd "/dl/game.exe" "Quake" = "/home/u/.apollo/apps/Quake/game.exe" ∧
    addDest wAdd "/dl/game.exe" "Quake" ≠ "/dl/game.exe" ∧
    (∃ cfg, (cmdAdd wAdd "/dl/game.exe" (some "Quake")).saved = some ("Quake", cfg) ∧
      getKey cfg "type" = some (.str "exe") ∧
      getKey cfg "network" = some (.str "nat")) := by
  have h := C8_add_exe_postconditions wAdd "/dl/game.exe" "Quake" (by decide) (by decide)
    rfl "Quake" (addConfig wAdd "Quake" "exe" (addDest wAdd "/dl/game.exe" "Quake"))
    (by decide)
  exact ⟨by decide, h.2.2.2.2.1, ⟨_, by decide, h.2.2.1, h.2.2.2.2.2⟩⟩
